import Mathlib

/-!
Verification model of the paper-trading portfolio engine:
- `src/agent/src/paper/portfolio.rs` (SimConfig, fill/fee/slippage simulator,
  Portfolio::execute_trade, Portfolio::resolve_with_prices),
- `src/agent/src/strategy.rs` (kelly_bet, survival_adjust),
- `src/agent/src/team/risk_manager.rs` (check).

Modelling conventions:
- `rust_decimal::Decimal` quantities are modelled as `ℚ`.  `Decimal` is an
  exact decimal type; its `round_dp(n)` (banker's rounding, midpoint-nearest-even)
  is modelled by `roundDp n` below.  `Decimal` division carries 28 significant
  digits before the source immediately re-rounds to 2 or 4 decimal places, so it
  is modelled as exact rational division.
- `f64` quantities that the source converts to/from `Decimal`
  (`judge_confidence`, `judge_fair_value`, the random rolls, the percentage in
  `pnl_pct`) are modelled as `ℚ`; the source only compares them against plain
  constants (0.5, 0.70, -30.0), where binary rounding is not observable.
- Random draws (`rand::thread_rng`) are modelled as explicit oracle inputs: the
  two uniform rolls and the fill percentage in `simulate_fill`, and the gas draw
  in `random_gas_fee`.  `resolve_with_prices` receives one gas draw per closed
  trade, indexed by closing order.
- `Utc::now()` is modelled as an explicit integer clock parameter (minutes),
  `uuid` as an explicit fresh-id parameter.
- The `Mutex` around `PortfolioInner` serialises each operation; every
  operation is therefore modelled as a pure state transformer on
  `PortfolioInner`.
- Intermediate quantities the source binds with `let` are lifted into named
  definitions so that theorems can speak about them; each one names the source
  binding it models.
-/

/-- Round-half-to-even of a rational to an integer, as used by
`rust_decimal::Decimal::round_dp` (strategy `MidpointNearestEven`). -/
def roundHalfEven (x : ℚ) : ℤ :=
  if x - ⌊x⌋ < 1/2 then ⌊x⌋
  else if 1/2 < x - ⌊x⌋ then ⌊x⌋ + 1
  else if ⌊x⌋ % 2 = 0 then ⌊x⌋ else ⌊x⌋ + 1

/-- Model of `Decimal::round_dp(d)`: banker's rounding to `d` decimal places. -/
def roundDp (d : ℕ) (x : ℚ) : ℚ :=
  (roundHalfEven (x * (10 : ℚ) ^ d) : ℚ) / (10 : ℚ) ^ d

/-- `types.rs`: `Direction`. -/
inductive Direction
  | Yes
  | No
  | Skip
deriving DecidableEq

/-- `types.rs`: `TradeStatus`. -/
inductive TradeStatus
  | Open
  | Won
  | Lost
  | Cancelled
deriving DecidableEq

/-- `types.rs`: `ExitReason`. -/
inductive ExitReason
  | TakeProfit
  | StopLoss
  | TimeExpiry
  | MarketResolved
  | ManualStop
  | SafetyValve
  | EdgeCaptured
deriving DecidableEq

/-- The slice of `types.rs`: `Market` that `portfolio.rs` reads
(`id` and `yes_price`). -/
structure Market where
  id : String
  yes_price : ℚ
deriving DecidableEq

/-- `portfolio.rs`: `SimConfig`. -/
structure SimConfig where
  fees_enabled : Bool
  slippage_enabled : Bool
  fills_enabled : Bool
  impact_enabled : Bool
  gas_fee_min : ℚ
  gas_fee_max : ℚ
  platform_fee_pct : ℚ
  maker_fee_pct : ℚ
  taker_fee_pct : ℚ
  base_slippage_pct : ℚ
  size_penalty_pct : ℚ
  size_penalty_threshold : ℚ
  reject_probability : ℚ
  partial_fill_probability : ℚ
  min_liquidity_volume : ℚ
  impact_threshold : ℚ
  impact_per_dollar_pct : ℚ
deriving DecidableEq

/-- `portfolio.rs`: `SimConfig::disabled()`. -/
def SimConfig.disabled : SimConfig :=
  { fees_enabled := false
    slippage_enabled := false
    fills_enabled := false
    impact_enabled := false
    gas_fee_min := 0
    gas_fee_max := 0
    platform_fee_pct := 0
    maker_fee_pct := 0
    taker_fee_pct := 0
    base_slippage_pct := 0
    size_penalty_pct := 0
    size_penalty_threshold := 0
    reject_probability := 0
    partial_fill_probability := 0
    min_liquidity_volume := 0
    impact_threshold := 0
    impact_per_dollar_pct := 0 }

/-- `portfolio.rs`: `random_gas_fee(min, max)`; the uniform draw in
`min..=max` is the explicit oracle argument `draw` (the source converts the
drawn `f64` back to `Decimal` and rounds it to 4 decimal places). -/
def random_gas_fee (lo hi draw : ℚ) : ℚ :=
  if hi ≤ lo then lo else roundDp 4 draw

/-- `calculate_slippage_pct`: the `spread_factor` binding — spread normalised
to a 0.05 reference, capped at 3×, defaulting to 1 for non-positive spreads. -/
def spreadFactor (spread : ℚ) : ℚ :=
  if 0 < spread then min (spread / (5/100)) 3 else 1

/-- `portfolio.rs`: `calculate_slippage_pct(sim, bet_size, spread)`. -/
def calculate_slippage_pct (sim : SimConfig) (bet_size spread : ℚ) : ℚ :=
  if sim.size_penalty_threshold < bet_size then
    sim.base_slippage_pct * spreadFactor spread
      + sim.size_penalty_pct * (bet_size - sim.size_penalty_threshold)
  else
    sim.base_slippage_pct * spreadFactor spread

/-- `portfolio.rs`: `calculate_impact_pct(sim, bet_size)`. -/
def calculate_impact_pct (sim : SimConfig) (bet_size : ℚ) : ℚ :=
  if bet_size ≤ sim.impact_threshold then 0
  else sim.impact_per_dollar_pct * (bet_size - sim.impact_threshold)

/-- Oracle for the random draws made during one `execute_trade` call:
the two uniform `[0,1)` rolls and the `0.50..=0.90` fill percentage of
`simulate_fill`, and the `gas_fee_min..=gas_fee_max` draw of
`random_gas_fee`. -/
structure ExecOracle where
  rejectRoll : ℚ
  partialRoll : ℚ
  fillPct : ℚ
  gasDraw : ℚ
deriving DecidableEq

/-- `portfolio.rs`: `simulate_fill(sim, bet_size, volume)`; returns `none` when
the order is rejected, `some adjusted_size` otherwise (the inner `if` condition
inlines the low-liquidity doubling of the partial-fill probability). -/
def simulate_fill (sim : SimConfig) (bet_size volume : ℚ) (o : ExecOracle) : Option ℚ :=
  if o.rejectRoll < sim.reject_probability then none
  else if o.partialRoll < sim.partial_fill_probability *
      (if volume < sim.min_liquidity_volume ∧ 0 < volume then 2 else 1) then
    some (roundDp 4 (bet_size * o.fillPct))
  else
    some bet_size

/-- `types.rs`: the `Trade` record.  `order_id`, `category`, `specialist_desk`,
`bull_probability`, `bear_probability`, `judge_model` and `token_id` are
audit-trail fields never read by the portfolio logic; they are carried as-is.
Timestamps are minutes on an abstract integer clock. -/
structure Trade where
  id : String
  timestamp : ℤ
  market_id : String
  question : String
  direction : Direction
  entry_price : ℚ
  fair_value : ℚ
  edge : ℚ
  bet_size : ℚ
  shares : ℚ
  status : TradeStatus
  exit_price : Option ℚ
  pnl : ℚ
  balance_after : ℚ
  order_id : Option String
  trade_mode : Option String
  take_profit : Option ℚ
  stop_loss : Option ℚ
  max_hold_until : Option ℤ
  category : Option String
  specialist_desk : Option String
  bull_probability : Option ℚ
  bear_probability : Option ℚ
  judge_fair_value : Option ℚ
  judge_confidence : Option ℚ
  judge_model : Option String
  exit_reason : Option ExitReason
  hold_duration_hours : Option ℚ
  token_id : Option String
  raw_entry_price : Option ℚ
  raw_exit_price : Option ℚ
  entry_gas_fee : ℚ
  exit_gas_fee : ℚ
  entry_slippage : ℚ
  exit_slippage : ℚ
  platform_fee : ℚ
  maker_taker_fee : ℚ
deriving DecidableEq

/-- `portfolio.rs`: the `PortfolioInner` state guarded by the `Mutex`
(`total_api_cost` and `start_time` are included for completeness). -/
structure PortfolioInner where
  balance : ℚ
  initial_balance : ℚ
  trades : List Trade
  open_trades : List Trade
  win_count : ℕ
  loss_count : ℕ
  total_api_cost : ℚ
  peak_balance : ℚ
  max_drawdown : ℚ
  start_time : ℤ
  consecutive_losses : ℕ
deriving DecidableEq

/-- `portfolio.rs`: `Portfolio::new(initial_balance)`. -/
def Portfolio.new (initial_balance : ℚ) (start_time : ℤ) : PortfolioInner :=
  { balance := initial_balance
    initial_balance := initial_balance
    trades := []
    open_trades := []
    win_count := 0
    loss_count := 0
    total_api_cost := 0
    peak_balance := initial_balance
    max_drawdown := 0
    start_time := start_time
    consecutive_losses := 0 }

/-- `portfolio.rs`: `Portfolio::is_alive(kill_threshold)`. -/
def Portfolio.is_alive (inner : PortfolioInner) (kill_threshold : ℚ) : Bool :=
  kill_threshold < inner.balance

/-- The `match direction` on the raw market price shared by `execute_trade`,
`resolve_with_prices` and `stats_with_markets`: `Yes` trades at the Yes price,
`No` at its complement, `Skip` has no price. -/
def directionPrice (d : Direction) (yes_price : ℚ) : Option ℚ :=
  match d with
  | Direction.Yes => some yes_price
  | Direction.No => some (1 - yes_price)
  | Direction.Skip => none

/-- `execute_trade`: the `adjustment` binding —
`slippage_pct + impact_pct`, each zero when its effect is disabled.  The spread
fed to the slippage model is `|yes_price − (1 − yes_price)|`. -/
def entryAdjustment (sim : SimConfig) (bet_size market_yes_price : ℚ) : ℚ :=
  (if sim.slippage_enabled then
    calculate_slippage_pct sim bet_size |market_yes_price - (1 - market_yes_price)|
   else 0)
  + (if sim.impact_enabled then calculate_impact_pct sim bet_size else 0)

/-- `execute_trade`: the `adjusted_price` binding — the raw price marked up by
the adjustment, capped at `0.99` (both directions use the same formula). -/
def adjustedEntryPrice (sim : SimConfig) (bet_size market_yes_price raw_price : ℚ) : ℚ :=
  min (raw_price * (1 + entryAdjustment sim bet_size market_yes_price)) (99/100)

/-- `execute_trade`: the `gas_fee` binding (0 when fees are disabled). -/
def entryGasFee (sim : SimConfig) (o : ExecOracle) : ℚ :=
  if sim.fees_enabled then random_gas_fee sim.gas_fee_min sim.gas_fee_max o.gasDraw else 0

/-- `execute_trade`: the `maker_taker` binding (0 when fees are disabled). -/
def entryMakerTaker (sim : SimConfig) (bet_size : ℚ) : ℚ :=
  if sim.fees_enabled then bet_size * sim.taker_fee_pct else 0

/-- `execute_trade`, lines 280-287: if `bet_size + gas + maker_taker` exceeds
the balance, shrink the bet to what remains (clamped at 0) and abort when the
remaining size is non-positive. -/
def clampedBet (balance bet_size gas_fee maker_taker : ℚ) : Option ℚ :=
  if balance < bet_size + gas_fee + maker_taker then
    if max (balance - gas_fee - maker_taker) 0 ≤ 0 then none
    else some (max (balance - gas_fee - maker_taker) 0)
  else some bet_size

/-- `execute_trade`: the `Trade` record built on success.  `bet_size2` is the
post-fill size (used for the slippage/impact/fee computations, as in the
source), `bet_size` the final clamped size. -/
def openedTrade (inner : PortfolioInner) (newId : String) (now : ℤ)
    (market_id question : String) (direction : Direction)
    (market_yes_price raw_price fair_value edge bet_size2 bet_size : ℚ)
    (sim : SimConfig) (o : ExecOracle) : Trade :=
  { id := newId
    timestamp := now
    market_id := market_id
    question := question
    direction := direction
    entry_price := adjustedEntryPrice sim bet_size2 market_yes_price raw_price
    fair_value := fair_value
    edge := edge
    bet_size := bet_size
    shares := roundDp 4 (bet_size / adjustedEntryPrice sim bet_size2 market_yes_price raw_price)
    status := TradeStatus.Open
    exit_price := none
    pnl := 0
    balance_after := inner.balance - bet_size - entryGasFee sim o - entryMakerTaker sim bet_size2
    order_id := none
    trade_mode := none
    take_profit := none
    stop_loss := none
    max_hold_until := none
    category := none
    specialist_desk := none
    bull_probability := none
    bear_probability := none
    judge_fair_value := none
    judge_confidence := none
    judge_model := none
    exit_reason := none
    hold_duration_hours := none
    token_id := none
    raw_entry_price := some raw_price
    raw_exit_price := none
    entry_gas_fee := entryGasFee sim o
    exit_gas_fee := 0
    entry_slippage :=
      |adjustedEntryPrice sim bet_size2 market_yes_price raw_price - raw_price| * bet_size2
        / adjustedEntryPrice sim bet_size2 market_yes_price raw_price
    exit_slippage := 0
    platform_fee := 0
    maker_taker_fee := entryMakerTaker sim bet_size2 }

/-- `execute_trade`: the state mutation on success — debit
`bet_size + gas + maker_taker`, append the trade to the history and the open
set. -/
def openedState (inner : PortfolioInner) (tr : Trade) (gas_fee maker_taker : ℚ) :
    PortfolioInner :=
  { inner with
    balance := inner.balance - (tr.bet_size + gas_fee + maker_taker)
    trades := inner.trades ++ [tr]
    open_trades := inner.open_trades ++ [tr] }

/-- `portfolio.rs`: `Portfolio::execute_trade` from the direction match onward
(after the balance clamp and the fill simulation have fixed the bet size). -/
def execute_trade_core (inner : PortfolioInner) (newId : String) (now : ℤ)
    (market_id question : String) (direction : Direction)
    (market_yes_price fair_value edge bet_size2 : ℚ)
    (sim : SimConfig) (o : ExecOracle) : Option (Trade × PortfolioInner) :=
  match directionPrice direction market_yes_price with
  | none => none
  | some raw_price =>
    if raw_price ≤ 0 then none
    else
      match clampedBet inner.balance bet_size2 (entryGasFee sim o)
          (entryMakerTaker sim bet_size2) with
      | none => none
      | some bet_size =>
        some (openedTrade inner newId now market_id question direction
                market_yes_price raw_price fair_value edge bet_size2 bet_size sim o,
              openedState inner
                (openedTrade inner newId now market_id question direction
                  market_yes_price raw_price fair_value edge bet_size2 bet_size sim o)
                (entryGasFee sim o) (entryMakerTaker sim bet_size2))

/-- `execute_trade`, lines 208-210: the requested size clamped to the
available balance. -/
def initialBet (balance bet_size0 : ℚ) : ℚ :=
  if balance < bet_size0 then balance else bet_size0

/-- `execute_trade`: the fill-simulation stage — `simulate_fill` when fills are
enabled, the identity otherwise. -/
def fillStage (sim : SimConfig) (bet volume : ℚ) (o : ExecOracle) : Option ℚ :=
  if sim.fills_enabled then simulate_fill sim bet volume o else some bet

/-- `portfolio.rs`: `Portfolio::execute_trade`.  A `none` result models the
early `return None` paths, which leave the portfolio state untouched. -/
def execute_trade (inner : PortfolioInner) (newId : String) (now : ℤ)
    (market_id question : String) (direction : Direction)
    (market_yes_price fair_value edge bet_size0 : ℚ)
    (sim : SimConfig) (market_volume : ℚ) (o : ExecOracle) :
    Option (Trade × PortfolioInner) :=
  if initialBet inner.balance bet_size0 ≤ 0 then none
  else
    match fillStage sim (initialBet inner.balance bet_size0) market_volume o with
    | none => none
    | some bet_size2 =>
      execute_trade_core inner newId now market_id question direction
        market_yes_price fair_value edge bet_size2 sim o

/-- `resolve_with_prices`: market lookup
`markets.iter().find(|m| m.id == trade.market_id)`. -/
def findMarket (markets : List Market) (mid : String) : Option Market :=
  markets.find? (fun m => m.id == mid)

/-- `resolve_with_prices`: take-profit trigger (`current_price >= tp`). -/
def tpTrigger (t : Trade) (cp : ℚ) : Option ExitReason :=
  match t.take_profit with
  | some tp => if tp ≤ cp then some ExitReason.TakeProfit else none
  | none => none

/-- `resolve_with_prices`: stop-loss trigger (`current_price <= sl`). -/
def slTrigger (t : Trade) (cp : ℚ) : Option ExitReason :=
  match t.stop_loss with
  | some sl => if cp ≤ sl then some ExitReason.StopLoss else none
  | none => none

/-- `resolve_with_prices`: max-hold trigger (`Utc::now() > max_hold`). -/
def timeTrigger (now : ℤ) (t : Trade) : Option ExitReason :=
  match t.max_hold_until with
  | some mh => if mh < now then some ExitReason.TimeExpiry else none
  | none => none

/-- `resolve_with_prices`, SWING arm: edge-captured trigger
(`captured >= 0.60` of the judge-fair-value edge; zero total edge guarded). -/
def edgeCapturedTrigger (t : Trade) (cp : ℚ) : Option ExitReason :=
  match t.judge_fair_value with
  | some jfv =>
    if 0 < |jfv - t.entry_price| then
      if (60 : ℚ)/100 ≤ (cp - t.entry_price) / (jfv - t.entry_price) then
        some ExitReason.EdgeCaptured
      else none
    else none
  | none => none

/-- The `if exit_reason.is_none()` chaining of the trigger cascade in
`resolve_with_prices`. -/
def firstSome (a b : Option ExitReason) : Option ExitReason :=
  match a with
  | some r => some r
  | none => b

/-- `resolve_with_prices`, SCALP arm: TP, else SL, else max-hold. -/
def scalpExit (now : ℤ) (t : Trade) (cp : ℚ) : Option ExitReason :=
  firstSome (tpTrigger t cp) (firstSome (slTrigger t cp) (timeTrigger now t))

/-- `resolve_with_prices`, SWING arm: TP, else edge-captured, else SL,
else max-hold. -/
def swingExit (now : ℤ) (t : Trade) (cp : ℚ) : Option ExitReason :=
  firstSome (tpTrigger t cp)
    (firstSome (edgeCapturedTrigger t cp)
      (firstSome (slTrigger t cp) (timeTrigger now t)))

/-- CONVICTION arm: the `pnl_pct` binding — unrealized P&L as a percentage
of stake (0 when the stake is not positive). -/
def unrealizedPnlPct (t : Trade) (cp : ℚ) : ℚ :=
  if 0 < t.bet_size then (cp - t.entry_price) * t.shares / t.bet_size * 100 else 0

/-- `resolve_with_prices`, CONVICTION arm: safety valve only —
unrealized loss below −30% of stake and judge confidence (default 0.5)
below 0.70. -/
def convictionExit (t : Trade) (cp : ℚ) : Option ExitReason :=
  if unrealizedPnlPct t cp < -30 ∧ t.judge_confidence.getD (1/2) < 7/10 then
    some ExitReason.SafetyValve
  else none

/-- `resolve_with_prices`, fallback arm: legacy percentage TP/SL on the
unrealized P&L fraction of stake (`change_pct = unrealizedPnlPct / 100`). -/
def legacyExit (exit_tp_pct exit_sl_pct : ℚ) (t : Trade) (cp : ℚ) : Option ExitReason :=
  if 0 < exit_tp_pct ∧ exit_tp_pct ≤ unrealizedPnlPct t cp / 100 then
    some ExitReason.TakeProfit
  else if 0 < exit_sl_pct ∧ unrealizedPnlPct t cp / 100 ≤ -exit_sl_pct then
    some ExitReason.StopLoss
  else none

/-- `resolve_with_prices`: the `match mode` dispatch on
`trade.trade_mode.as_deref().unwrap_or("SWING")`. -/
def modeExit (exit_tp_pct exit_sl_pct : ℚ) (now : ℤ) (t : Trade) (cp : ℚ) :
    Option ExitReason :=
  if t.trade_mode.getD "SWING" = "SCALP" then scalpExit now t cp
  else if t.trade_mode.getD "SWING" = "SWING" then swingExit now t cp
  else if t.trade_mode.getD "SWING" = "CONVICTION" then convictionExit t cp
  else legacyExit exit_tp_pct exit_sl_pct t cp

/-- `resolve_with_prices`, per-trade decision: `none` when the loop `continue`s
(Skip direction drops the trade); otherwise the current direction-adjusted
price together with the optional exit reason — `MarketResolved` at the entry
price when the market is gone from the snapshot. -/
def tradeDecision (markets : List Market) (exit_tp_pct exit_sl_pct : ℚ) (now : ℤ)
    (t : Trade) : Option (ℚ × Option ExitReason) :=
  if t.direction = Direction.Skip then none
  else
    match findMarket markets t.market_id with
    | some m =>
      some ((directionPrice t.direction m.yes_price).getD 0,
        modeExit exit_tp_pct exit_sl_pct now t
          ((directionPrice t.direction m.yes_price).getD 0))
    | none => some (t.entry_price, some ExitReason.MarketResolved)

/-- `resolve_with_prices`, close branch: the `exit_slippage_pct` binding
(the exit spread is estimated at 0.03 in the source). -/
def exitSlippagePct (sim : SimConfig) (bet_size : ℚ) : ℚ :=
  if sim.slippage_enabled then calculate_slippage_pct sim bet_size (3/100) else 0

/-- `resolve_with_prices`, close branch: the `actual_exit_price` binding
(selling is penalised downward). -/
def actualExitPrice (sim : SimConfig) (bet_size cp : ℚ) : ℚ :=
  cp * (1 - exitSlippagePct sim bet_size)

/-- `resolve_with_prices`, close branch: the `gross_pnl` binding. -/
def grossPnl (sim : SimConfig) (cp : ℚ) (t : Trade) : ℚ :=
  (actualExitPrice sim t.bet_size cp - t.entry_price) * t.shares

/-- `resolve_with_prices`, close branch: the `exit_gas` binding. -/
def exitGasFeeOf (sim : SimConfig) (gasDraw : ℚ) : ℚ :=
  if sim.fees_enabled then random_gas_fee sim.gas_fee_min sim.gas_fee_max gasDraw else 0

/-- `resolve_with_prices`, close branch: the `exit_maker_taker` binding
(taker fee on the absolute exit notional). -/
def exitMakerTaker (sim : SimConfig) (cp : ℚ) (t : Trade) : ℚ :=
  if sim.fees_enabled then |actualExitPrice sim t.bet_size cp * t.shares| * sim.taker_fee_pct
  else 0

/-- `resolve_with_prices`, close branch: the `plat_fee` binding (charged only
on profitable exits). -/
def platformFeeOf (sim : SimConfig) (cp : ℚ) (t : Trade) : ℚ :=
  if sim.fees_enabled ∧ 0 < grossPnl sim cp t then grossPnl sim cp t * sim.platform_fee_pct
  else 0

/-- `resolve_with_prices`, close branch: the `return_amount` binding —
`bet_size + gross_pnl − exit_gas − exit_maker_taker − plat_fee`. -/
def returnAmount (sim : SimConfig) (gasDraw cp : ℚ) (t : Trade) : ℚ :=
  t.bet_size + grossPnl sim cp t - exitGasFeeOf sim gasDraw - exitMakerTaker sim cp t
    - platformFeeOf sim cp t

/-- `resolve_with_prices`, close branch (`if let Some(reason)`): the closed
trade record (with `balance_after` set) and the new balance (the credited
return amount is floored at 0). -/
def closeTrade (sim : SimConfig) (gasDraw : ℚ) (now : ℤ) (reason : ExitReason)
    (cp : ℚ) (balance : ℚ) (t : Trade) : Trade × ℚ :=
  ({ t with
      raw_exit_price := some cp
      exit_slippage := |cp - actualExitPrice sim t.bet_size cp| * t.shares
      exit_gas_fee := exitGasFeeOf sim gasDraw
      platform_fee := platformFeeOf sim cp t
      maker_taker_fee := t.maker_taker_fee + exitMakerTaker sim cp t
      exit_price := some (actualExitPrice sim t.bet_size cp)
      pnl := grossPnl sim cp t
      exit_reason := some reason
      hold_duration_hours := some (((now - t.timestamp : ℤ) : ℚ) / 60)
      status := if 0 < grossPnl sim cp t then TradeStatus.Won else TradeStatus.Lost
      balance_after :=
        balance + (if 0 < returnAmount sim gasDraw cp t then returnAmount sim gasDraw cp t else 0) },
    balance + (if 0 < returnAmount sim gasDraw cp t then returnAmount sim gasDraw cp t else 0))

/-- `resolve_with_prices`: in-place update of the closed trade inside the full
history (`trades.iter_mut().find(|t| t.id == trade.id)` — first match only). -/
def updateFirstById (ts : List Trade) (u : Trade) : List Trade :=
  match ts with
  | [] => []
  | t :: rest => if t.id = u.id then u :: rest else t :: updateFirstById rest u

/-- Accumulator for the `for mut trade in pending` loop of
`resolve_with_prices`: the mutable `PortfolioInner` fields it touches, the
`still_open` and `resolved` vectors, and the index of the next exit-gas draw. -/
structure ResolveAcc where
  balance : ℚ
  trades : List Trade
  win_count : ℕ
  loss_count : ℕ
  consecutive_losses : ℕ
  still_open : List Trade
  resolved : List Trade
  gasIdx : ℕ
deriving DecidableEq

/-- One iteration of the `resolve_with_prices` loop: drop Skip trades, keep
non-triggered trades, close triggered trades (updating balance, history, and
win/loss/streak counters from the sign of the gross P&L). -/
def resolveStep (markets : List Market) (exit_tp_pct exit_sl_pct : ℚ)
    (sim : SimConfig) (now : ℤ) (gas : ℕ → ℚ) (acc : ResolveAcc) (t : Trade) :
    ResolveAcc :=
  match tradeDecision markets exit_tp_pct exit_sl_pct now t with
  | none => acc
  | some (_, none) => { acc with still_open := acc.still_open ++ [t] }
  | some (cp, some reason) =>
    { balance := (closeTrade sim (gas acc.gasIdx) now reason cp acc.balance t).2
      trades := updateFirstById acc.trades
        (closeTrade sim (gas acc.gasIdx) now reason cp acc.balance t).1
      win_count := if 0 < grossPnl sim cp t then acc.win_count + 1 else acc.win_count
      loss_count := if 0 < grossPnl sim cp t then acc.loss_count else acc.loss_count + 1
      consecutive_losses := if 0 < grossPnl sim cp t then 0 else acc.consecutive_losses + 1
      still_open := acc.still_open
      resolved := acc.resolved ++ [(closeTrade sim (gas acc.gasIdx) now reason cp acc.balance t).1]
      gasIdx := acc.gasIdx + 1 }

/-- The accumulator at the start of the `resolve_with_prices` loop: the
mutable fields copied from the state, empty vectors, first gas draw. -/
def initAcc (inner : PortfolioInner) : ResolveAcc :=
  { balance := inner.balance
    trades := inner.trades
    win_count := inner.win_count
    loss_count := inner.loss_count
    consecutive_losses := inner.consecutive_losses
    still_open := []
    resolved := []
    gasIdx := 0 }

/-- `portfolio.rs`: `Portfolio::resolve_with_prices`.  Returns the updated
state and the vector of trades closed this cycle; the peak-balance and
max-drawdown updates at the end of the source function are applied after the
loop. -/
def resolve_with_prices (inner : PortfolioInner) (markets : List Market)
    (exit_tp_pct exit_sl_pct : ℚ) (sim : SimConfig) (now : ℤ) (gas : ℕ → ℚ) :
    PortfolioInner × List Trade :=
  let acc := inner.open_trades.foldl
    (resolveStep markets exit_tp_pct exit_sl_pct sim now gas) (initAcc inner)
  let peak1 := if inner.peak_balance < acc.balance then acc.balance else inner.peak_balance
  ({ inner with
      balance := acc.balance
      trades := acc.trades
      open_trades := acc.still_open
      win_count := acc.win_count
      loss_count := acc.loss_count
      consecutive_losses := acc.consecutive_losses
      peak_balance := peak1
      max_drawdown :=
        if 0 < peak1 ∧ inner.max_drawdown < (peak1 - acc.balance) / peak1 then
          (peak1 - acc.balance) / peak1
        else inner.max_drawdown },
    acc.resolved)

/-- `strategy.rs`: `KellyResult`. -/
structure KellyResult where
  full_kelly : ℚ
  adjusted_kelly : ℚ
  bet_size : ℚ
  max_allowed : ℚ
  risk_level : String
  expected_value : ℚ
deriving DecidableEq

/-- `kelly_bet`: effective probability of the traded side
(`p` for Yes, `1 − p` for No). -/
def kellyEffProb (direction : Direction) (fair_prob : ℚ) : ℚ :=
  match direction with
  | Direction.Yes => fair_prob
  | _ => 1 - fair_prob

/-- `kelly_bet`: effective price of the traded side
(market price for Yes, its complement for No). -/
def kellyEffPrice (direction : Direction) (market_price : ℚ) : ℚ :=
  match direction with
  | Direction.Yes => market_price
  | _ => 1 - market_price

/-- `kelly_bet`: the `b` binding — net odds `(1 − price) / price`. -/
def kellyNetOdds (price : ℚ) : ℚ := (1 - price) / price

/-- `kelly_bet`: the `kelly` binding — full Kelly fraction
`(p·b − q) / b` with `q = 1 − p`. -/
def kellyFullFraction (p price : ℚ) : ℚ :=
  (p * kellyNetOdds price - (1 - p)) / kellyNetOdds price

/-- `kelly_bet`: the auto-scaling `scale_factor` binding — grows linearly once
the bankroll exceeds the assumed $100 starting point. -/
def kellyScaleFactor (bankroll : ℚ) : ℚ :=
  if 100 < bankroll then 1 + (bankroll / 100 - 1) * (5/10) else 1

/-- `kelly_bet`: the `bet_fraction` binding — the conservatism-adjusted Kelly
fraction capped by the scaled max position fraction (itself capped at 80%). -/
def kellyBetFraction (bankroll max_pct kelly_fraction p price : ℚ) : ℚ :=
  min (kellyFullFraction p price * kelly_fraction)
    (min (max_pct * kellyScaleFactor bankroll) (80/100))

/-- `kelly_bet`: the zero result every guard path returns. -/
def kellyZeroResult (bankroll max_pct : ℚ) : KellyResult :=
  { full_kelly := 0
    adjusted_kelly := 0
    bet_size := 0
    max_allowed := bankroll * max_pct
    risk_level := "NONE"
    expected_value := 0 }

/-- `strategy.rs`: `kelly_bet(bankroll, fair_prob, market_price, direction,
max_pct, kelly_fraction)`. -/
def kelly_bet (bankroll fair_prob market_price : ℚ) (direction : Direction)
    (max_pct kelly_fraction : ℚ) : KellyResult :=
  if direction = Direction.Skip then kellyZeroResult bankroll max_pct
  else if kellyEffPrice direction market_price ≤ 0 ∨ 1 ≤ kellyEffPrice direction market_price
      ∨ kellyEffProb direction fair_prob ≤ 0 ∨ 1 ≤ kellyEffProb direction fair_prob then
    kellyZeroResult bankroll max_pct
  else if kellyFullFraction (kellyEffProb direction fair_prob)
      (kellyEffPrice direction market_price) ≤ 0 then
    kellyZeroResult bankroll max_pct
  else if roundDp 2 (bankroll * kellyBetFraction bankroll max_pct kelly_fraction
      (kellyEffProb direction fair_prob) (kellyEffPrice direction market_price)) < 10/100 then
    { kellyZeroResult bankroll max_pct with
        full_kelly := kellyFullFraction (kellyEffProb direction fair_prob)
          (kellyEffPrice direction market_price)
        adjusted_kelly := kellyFullFraction (kellyEffProb direction fair_prob)
          (kellyEffPrice direction market_price) * kelly_fraction
        bet_size := 0
        risk_level := "BELOW_MIN" }
  else
    { full_kelly := kellyFullFraction (kellyEffProb direction fair_prob)
        (kellyEffPrice direction market_price)
      adjusted_kelly := kellyFullFraction (kellyEffProb direction fair_prob)
        (kellyEffPrice direction market_price) * kelly_fraction
      bet_size :=
        if bankroll < roundDp 2 (bankroll * kellyBetFraction bankroll max_pct kelly_fraction
            (kellyEffProb direction fair_prob) (kellyEffPrice direction market_price)) then
          bankroll
        else roundDp 2 (bankroll * kellyBetFraction bankroll max_pct kelly_fraction
            (kellyEffProb direction fair_prob) (kellyEffPrice direction market_price))
      max_allowed := bankroll * max_pct
      risk_level :=
        if kellyBetFraction bankroll max_pct kelly_fraction (kellyEffProb direction fair_prob)
            (kellyEffPrice direction market_price) < 2/100 then "LOW"
        else if kellyBetFraction bankroll max_pct kelly_fraction (kellyEffProb direction fair_prob)
            (kellyEffPrice direction market_price) < 3/100 then "MEDIUM"
        else "HIGH"
      expected_value :=
        roundDp 4 (kellyEffProb direction fair_prob
          * ((if bankroll < roundDp 2 (bankroll * kellyBetFraction bankroll max_pct kelly_fraction
                (kellyEffProb direction fair_prob) (kellyEffPrice direction market_price)) then
              bankroll
            else roundDp 2 (bankroll * kellyBetFraction bankroll max_pct kelly_fraction
                (kellyEffProb direction fair_prob) (kellyEffPrice direction market_price)))
            * kellyNetOdds (kellyEffPrice direction market_price))
          - (1 - kellyEffProb direction fair_prob)
            * (if bankroll < roundDp 2 (bankroll * kellyBetFraction bankroll max_pct kelly_fraction
                (kellyEffProb direction fair_prob) (kellyEffPrice direction market_price)) then
              bankroll
            else roundDp 2 (bankroll * kellyBetFraction bankroll max_pct kelly_fraction
                (kellyEffProb direction fair_prob) (kellyEffPrice direction market_price)))) }

/-- `strategy.rs`: `survival_adjust(bankroll, kill_threshold, normal_max_pct)`
→ `(adjusted max fraction, is-dead flag)`. -/
def survival_adjust (bankroll kill_threshold normal_max_pct : ℚ) : ℚ × Bool :=
  if bankroll ≤ kill_threshold then (0, true)
  else if bankroll < kill_threshold * 3 then
    (max (normal_max_pct * ((bankroll - kill_threshold) / (kill_threshold * 3 - kill_threshold))
        * (5/10)) (1/100),
      false)
  else
    (normal_max_pct, false)

/-- `risk_manager.rs`: the rejection/approval reasons.  The source carries a
formatted `reason: String`; the logic only ever selects which branch produced
it, so the strings are abstracted to this closed enum. -/
inductive RiskReason
  | directionSkip
  | belowKill
  | reserveExceeded
  | lowConfidence
  | dead
  | edgeTooLarge
  | kellyZero
  | scaledZero
  | approvedOk
deriving DecidableEq

/-- `team/types.rs`: `RiskDecision` (reason abstracted to `RiskReason`;
the `adjustments` log strings are dropped). -/
structure RiskDecision where
  approved : Bool
  position_size : ℚ
  reason : RiskReason
deriving DecidableEq

/-- `risk_manager.rs`: the rough market-price estimate fed to `kelly_bet`
(computed in `f64` in the source, modelled exactly). -/
def riskMarketEstimate (direction : Direction) (fair_value_yes : ℚ) : ℚ :=
  if direction = Direction.Yes then
    fair_value_yes - |fair_value_yes - 1/2| * (1/2)
  else
    1 - fair_value_yes + |fair_value_yes - 1/2| * (1/2)

/-- `risk_manager.rs` check: the `confidence_scale` binding — 1 at or above
0.80 confidence, otherwise `confidence / 0.80` capped at 1. -/
def riskConfidenceScale (confidence : ℚ) : ℚ :=
  if 80/100 ≤ confidence then 1 else min (confidence / (80/100)) 1

/-- `risk_manager.rs` check: the `kelly` binding — `kelly_bet` applied to the
survival-adjusted max fraction and the rough market estimate. -/
def riskKelly (direction : Direction) (fair_value_yes balance kill_threshold
    kelly_fraction effective_max_pct : ℚ) : KellyResult :=
  kelly_bet balance fair_value_yes (riskMarketEstimate direction fair_value_yes)
    direction (survival_adjust balance kill_threshold effective_max_pct).1 kelly_fraction

/-- `risk_manager.rs`: `check(verdict, portfolio, config, effective_max_pct)`.
The verdict contributes `direction`, `confidence` and `fair_value_yes`; the
portfolio contributes its current balance (`portfolio.balance()`, with
`is_alive` = `kill_threshold < balance`); the config contributes
`kill_threshold`, `initial_balance`, `balance_reserve_pct`, `min_confidence`
and `kelly_fraction`. -/
def riskCheck (direction : Direction) (confidence fair_value_yes : ℚ)
    (balance kill_threshold initial_balance balance_reserve_pct
     min_confidence kelly_fraction effective_max_pct : ℚ) : RiskDecision :=
  if direction = Direction.Skip then
    { approved := false, position_size := 0, reason := RiskReason.directionSkip }
  else if ¬ kill_threshold < balance then
    { approved := false, position_size := 0, reason := RiskReason.belowKill }
  else if balance - initial_balance * balance_reserve_pct ≤ 0 then
    { approved := false, position_size := 0, reason := RiskReason.reserveExceeded }
  else if confidence < min_confidence then
    { approved := false, position_size := 0, reason := RiskReason.lowConfidence }
  else if (survival_adjust balance kill_threshold effective_max_pct).2 then
    { approved := false, position_size := 0, reason := RiskReason.dead }
  else if 35/100 < |fair_value_yes - 1/2| then
    { approved := false, position_size := 0, reason := RiskReason.edgeTooLarge }
  else if (riskKelly direction fair_value_yes balance kill_threshold kelly_fraction
      effective_max_pct).bet_size ≤ 0 then
    { approved := false, position_size := 0, reason := RiskReason.kellyZero }
  else if roundDp 2 (min (riskKelly direction fair_value_yes balance kill_threshold
      kelly_fraction effective_max_pct).bet_size
      (balance - initial_balance * balance_reserve_pct) * riskConfidenceScale confidence) ≤ 0 then
    { approved := false, position_size := 0, reason := RiskReason.scaledZero }
  else
    { approved := true
      position_size := roundDp 2 (min (riskKelly direction fair_value_yes balance kill_threshold
        kelly_fraction effective_max_pct).bet_size
        (balance - initial_balance * balance_reserve_pct) * riskConfidenceScale confidence)
      reason := RiskReason.approvedOk }

theorem roundHalfEven_nonneg {x : ℚ} (hx : 0 ≤ x) : 0 ≤ roundHalfEven x := by
  have hf : (0 : ℤ) ≤ ⌊x⌋ := Int.floor_nonneg.mpr hx
  unfold roundHalfEven
  split_ifs <;> omega

theorem roundDp_nonneg {d : ℕ} {x : ℚ} (hx : 0 ≤ x) : 0 ≤ roundDp d x := by
  unfold roundDp
  have h1 : (0 : ℚ) ≤ (roundHalfEven (x * (10 : ℚ) ^ d) : ℚ) := by
    exact_mod_cast roundHalfEven_nonneg (by positivity)
  positivity

theorem random_gas_fee_nonneg {lo hi draw : ℚ} (hlo : 0 ≤ lo) (hdraw : 0 ≤ draw) :
    0 ≤ random_gas_fee lo hi draw := by
  unfold random_gas_fee
  split_ifs
  · exact hlo
  · exact roundDp_nonneg hdraw

theorem entryGasFee_nonneg {sim : SimConfig} {o : ExecOracle}
    (hlo : 0 ≤ sim.gas_fee_min) (hdraw : 0 ≤ o.gasDraw) :
    0 ≤ entryGasFee sim o := by
  unfold entryGasFee
  split_ifs
  · exact random_gas_fee_nonneg hlo hdraw
  · exact le_refl 0

theorem entryMakerTaker_nonneg {sim : SimConfig} {bet : ℚ}
    (hbet : 0 ≤ bet) (ht : 0 ≤ sim.taker_fee_pct) :
    0 ≤ entryMakerTaker sim bet := by
  unfold entryMakerTaker
  split_ifs
  · exact mul_nonneg hbet ht
  · exact le_refl 0

theorem clampedBet_le {balance bet gas mt b : ℚ}
    (hgas : 0 ≤ gas) (hmt : 0 ≤ mt)
    (h : clampedBet balance bet gas mt = some b) :
    b ≤ balance ∧ b + gas + mt ≤ balance := by
  unfold clampedBet at h
  by_cases h1 : balance < bet + gas + mt
  · rw [if_pos h1] at h
    by_cases h2 : max (balance - gas - mt) 0 ≤ 0
    · rw [if_pos h2] at h
      cases h
    · rw [if_neg h2] at h
      have hb : max (balance - gas - mt) 0 = b := by injection h
      have hpos : 0 < max (balance - gas - mt) 0 := lt_of_not_le h2
      have hx : 0 < balance - gas - mt := by
        rcases lt_max_iff.mp hpos with h3 | h3
        · exact h3
        · exact absurd h3 (lt_irrefl 0)
      have hbx : b = balance - gas - mt := by
        rw [← hb, max_eq_left (le_of_lt hx)]
      exact ⟨by rw [hbx]; linarith, by rw [hbx]; linarith⟩
  · rw [if_neg h1] at h
    have hb : bet = b := by injection h
    have hle : bet + gas + mt ≤ balance := le_of_not_lt h1
    exact ⟨by rw [← hb]; linarith, by rw [← hb]; linarith⟩

theorem simulate_fill_nonneg {sim : SimConfig} {bet vol b2 : ℚ} {o : ExecOracle}
    (hb : 0 ≤ bet) (hp : 0 ≤ o.fillPct)
    (h : simulate_fill sim bet vol o = some b2) : 0 ≤ b2 := by
  unfold simulate_fill at h
  split_ifs at h <;>
    first
      | (injection h with hb2
         rw [← hb2]
         exact roundDp_nonneg (mul_nonneg hb hp))
      | (injection h with hb2
         rw [← hb2]
         exact hb)
      | cases h

theorem fillStage_nonneg {sim : SimConfig} {bet vol b2 : ℚ} {o : ExecOracle}
    (hb : 0 ≤ bet) (hp : 0 ≤ o.fillPct)
    (h : fillStage sim bet vol o = some b2) : 0 ≤ b2 := by
  unfold fillStage at h
  split_ifs at h
  · exact simulate_fill_nonneg hb hp h
  · have hb2 : bet = b2 := by injection h
    rw [← hb2]
    exact hb

theorem execute_trade_core_bounds
    {inner : PortfolioInner} {newId : String} {now : ℤ}
    {market_id question : String} {direction : Direction}
    {market_yes_price fair_value edge bet_size2 : ℚ}
    {sim : SimConfig} {o : ExecOracle} {tr : Trade} {inner1 : PortfolioInner}
    (hgas : 0 ≤ entryGasFee sim o)
    (hmt : 0 ≤ entryMakerTaker sim bet_size2)
    (h : execute_trade_core inner newId now market_id question direction
      market_yes_price fair_value edge bet_size2 sim o = some (tr, inner1)) :
    tr.bet_size ≤ inner.balance ∧
    tr.bet_size + tr.entry_gas_fee + tr.maker_taker_fee ≤ inner.balance ∧
    inner1.balance = inner.balance - (tr.bet_size + tr.entry_gas_fee + tr.maker_taker_fee) := by
  unfold execute_trade_core at h
  split at h
  · cases h
  · rename_i raw_price hdp
    split at h
    · cases h
    · rename_i hraw
      split at h
      · cases h
      · rename_i bet_size hc
        injection h with h1
        injection h1 with htr hinner
        obtain ⟨hle1, hle2⟩ := clampedBet_le hgas hmt hc
        subst htr
        subst hinner
        refine ⟨?_, ?_, ?_⟩
        · simpa [openedTrade] using hle1
        · simpa [openedTrade] using hle2
        · simp [openedTrade, openedState]

/-- Claim C1: with a non-negative starting balance (and the simulation
parameters and random draws non-negative, as the configuration guarantees),
every successful `execute_trade` call satisfies: the recorded `bet_size` is at
most the pre-call balance, the total deduction `bet_size + gas + maker/taker`
never exceeds the pre-call balance, the new balance is exactly the old balance
minus that deduction, and it is never negative.  The aborting paths (including
a non-positive remaining size after fee deduction) return `none` and by
construction leave the state unchanged. -/
theorem claim_C1_execute_trade_balance
    {inner : PortfolioInner} {newId : String} {now : ℤ}
    {market_id question : String} {direction : Direction}
    {market_yes_price fair_value edge bet_size0 market_volume : ℚ}
    {sim : SimConfig} {o : ExecOracle} {tr : Trade} {inner1 : PortfolioInner}
    (hbal : 0 ≤ inner.balance)
    (hgaslo : 0 ≤ sim.gas_fee_min) (hgasdraw : 0 ≤ o.gasDraw)
    (htaker : 0 ≤ sim.taker_fee_pct) (hfill : 0 ≤ o.fillPct)
    (h : execute_trade inner newId now market_id question direction
      market_yes_price fair_value edge bet_size0 sim market_volume o = some (tr, inner1)) :
    tr.bet_size ≤ inner.balance ∧
    tr.bet_size + tr.entry_gas_fee + tr.maker_taker_fee ≤ inner.balance ∧
    inner1.balance = inner.balance - (tr.bet_size + tr.entry_gas_fee + tr.maker_taker_fee) ∧
    0 ≤ inner1.balance := by
  unfold execute_trade at h
  split at h
  · cases h
  · rename_i hbet1
    split at h
    · cases h
    · rename_i bet_size2 hfillres
      have hb1 : 0 ≤ initialBet inner.balance bet_size0 :=
        le_of_lt (lt_of_not_le hbet1)
      have hb2 : 0 ≤ bet_size2 := fillStage_nonneg hb1 hfill hfillres
      obtain ⟨h1, h2, h3⟩ := execute_trade_core_bounds
        (entryGasFee_nonneg hgaslo hgasdraw)
        (entryMakerTaker_nonneg hb2 htaker) h
      exact ⟨h1, h2, h3, by rw [h3]; linarith⟩

/-- Claim C1 witness: a concrete successful call (balance 100, bet 20 at Yes
price 0.40 with the simulation disabled) satisfying all the hypotheses; the
first conjunct checks that the call does succeed. -/
theorem claim_C1_witness :
    (execute_trade (Portfolio.new 100 0) "t1" 0 "m1" "q" Direction.Yes
      (2/5) (1/2) (1/10) 20 SimConfig.disabled 0 ⟨1, 1, 7/10, 0⟩).isSome = true ∧
    (execute_trade (Portfolio.new 100 0) "t1" 0 "m1" "q" Direction.Yes
      (2/5) (1/2) (1/10) 20 SimConfig.disabled 0 ⟨1, 1, 7/10, 0⟩).elim True (fun p =>
        p.1.bet_size ≤ (Portfolio.new 100 0).balance ∧
        p.1.bet_size + p.1.entry_gas_fee + p.1.maker_taker_fee ≤ (Portfolio.new 100 0).balance ∧
        p.2.balance = (Portfolio.new 100 0).balance
          - (p.1.bet_size + p.1.entry_gas_fee + p.1.maker_taker_fee) ∧
        0 ≤ p.2.balance) := by
  constructor
  · norm_num [execute_trade, execute_trade_core, initialBet, fillStage, Portfolio.new,
      SimConfig.disabled, directionPrice, clampedBet, entryGasFee, entryMakerTaker,
      Option.isSome]
  · cases hE : execute_trade (Portfolio.new 100 0) "t1" 0 "m1" "q" Direction.Yes
        (2/5) (1/2) (1/10) 20 SimConfig.disabled 0 ⟨1, 1, 7/10, 0⟩ with
    | none => trivial
    | some p =>
      obtain ⟨h1, h2, h3, h4⟩ := claim_C1_execute_trade_balance
        (by norm_num [Portfolio.new]) (by norm_num [SimConfig.disabled])
        (by norm_num) (by norm_num [SimConfig.disabled]) (by norm_num)
        (by rw [hE] : execute_trade (Portfolio.new 100 0) "t1" 0 "m1" "q" Direction.Yes
          (2/5) (1/2) (1/10) 20 SimConfig.disabled 0 ⟨1, 1, 7/10, 0⟩ = some (p.1, p.2))
      exact ⟨h1, h2, h3, h4⟩

/-- Claim C3: `kelly_bet` with bankroll 100, probability 0.65, price 0.50,
direction Yes, multiplier 1, cap 1 returns full Kelly fraction 0.30 and stake
30; in general (for Yes with valid probability/price) the full Kelly fraction
is `(p·b − q)/b` with `b = (1 − price)/price`, `q = 1 − p`, and any `f* ≤ 0`
yields the zero-stake result. -/
theorem claim_C3_kelly_bet (bankroll fair_prob market_price max_pct kelly_fraction : ℚ)
    (hp0 : 0 < fair_prob) (hp1 : fair_prob < 1)
    (hpr0 : 0 < market_price) (hpr1 : market_price < 1) :
    ((kelly_bet 100 (65/100) (1/2) Direction.Yes 1 1).full_kelly = 30/100 ∧
      (kelly_bet 100 (65/100) (1/2) Direction.Yes 1 1).bet_size = 30) ∧
    kellyFullFraction fair_prob market_price
      = (fair_prob * ((1 - market_price) / market_price) - (1 - fair_prob))
        / ((1 - market_price) / market_price) ∧
    (0 < kellyFullFraction fair_prob market_price →
      (kelly_bet bankroll fair_prob market_price Direction.Yes max_pct
        kelly_fraction).full_kelly = kellyFullFraction fair_prob market_price) ∧
    (kellyFullFraction fair_prob market_price ≤ 0 →
      (kelly_bet bankroll fair_prob market_price Direction.Yes max_pct
          kelly_fraction).bet_size = 0 ∧
      (kelly_bet bankroll fair_prob market_price Direction.Yes max_pct
          kelly_fraction).full_kelly = 0) := by
  have hne : ¬ (Direction.Yes = Direction.Skip) := by simp
  have he1 : kellyEffPrice Direction.Yes market_price = market_price := rfl
  have he2 : kellyEffProb Direction.Yes fair_prob = fair_prob := rfl
  have hguard : ¬ (kellyEffPrice Direction.Yes market_price ≤ 0
      ∨ 1 ≤ kellyEffPrice Direction.Yes market_price
      ∨ kellyEffProb Direction.Yes fair_prob ≤ 0
      ∨ 1 ≤ kellyEffProb Direction.Yes fair_prob) := by
    rw [he1, he2]
    push_neg
    exact ⟨hpr0, hpr1, hp0, hp1⟩
  refine ⟨⟨?_, ?_⟩, rfl, ?_, ?_⟩
  · unfold kelly_bet
    rw [if_neg hne]
    norm_num [kellyZeroResult, kellyEffProb, kellyEffPrice,
      kellyFullFraction, kellyNetOdds, kellyBetFraction, kellyScaleFactor,
      roundDp, roundHalfEven]
  · unfold kelly_bet
    rw [if_neg hne]
    norm_num [kellyZeroResult, kellyEffProb, kellyEffPrice,
      kellyFullFraction, kellyNetOdds, kellyBetFraction, kellyScaleFactor,
      roundDp, roundHalfEven]
  · intro hf
    unfold kelly_bet
    rw [if_neg hne, if_neg hguard, if_neg (by rw [he1, he2]; exact not_le.mpr hf)]
    rw [he1, he2]
    split_ifs <;> rfl
  · intro hf
    unfold kelly_bet
    rw [if_neg hne, if_neg hguard, if_pos (by rw [he1, he2]; exact hf)]
    exact ⟨rfl, rfl⟩

/-- Claim C3 witness: the theorem applied at the concrete spec example. -/
theorem claim_C3_witness :
    (kelly_bet 100 (65/100) (1/2) Direction.Yes 1 1).full_kelly = 30/100 ∧
    (kelly_bet 100 (65/100) (1/2) Direction.Yes 1 1).bet_size = 30 :=
  (claim_C3_kelly_bet 100 (65/100) (1/2) 1 1
    (by norm_num) (by norm_num) (by norm_num) (by norm_num)).1

/-- Claim C4 counterexample: at kill 10, normal fraction 0.20, the in-buffer
fraction at bankroll 20 is `max(0.20·0.5·0.5, 0.01) = 0.05`, not the linear
interpolation `0.01 + 0.5·(0.10 − 0.01) = 0.055` between the 1% floor and 50%
of the normal fraction; and the fraction is a stepped, not continuous, function
of bankroll: it jumps from 0 to the 1% floor just above the kill threshold
(10 → 10.01) and from ≈50% of normal to the full normal fraction at the buffer
boundary (29.99 → 30). -/
theorem claim_C4_counterexample :
    (survival_adjust 20 10 (2/10)).1 = 1/20 ∧
    ¬ (survival_adjust 20 10 (2/10)).1
        = 1/100 + ((20 - 10) / (10 * 3 - 10)) * ((5/10) * (2/10) - 1/100) ∧
    (survival_adjust 10 10 (2/10)).1 = 0 ∧
    (survival_adjust (1001/100) 10 (2/10)).1 = 1/100 ∧
    (survival_adjust (2999/100) 10 (2/10)).1 = 1999/20000 ∧
    (survival_adjust 30 10 (2/10)).1 = 2/10 := by
  norm_num [survival_adjust]

/-- Claim C4 (amended): `survival_adjust` returns `(0, dead)` iff
`bankroll ≤ kill`; strictly inside the buffer zone `(kill, 3·kill)` it returns
`max(normal · ratio · 50%, 1%)` with `ratio = (bankroll − kill)/(buffer − kill)`
— a ramp from 0 to 50% of the normal fraction clamped below at the 1% floor,
not a linear interpolation between the floor and 50% of normal; otherwise the
normal fraction unchanged.  The resulting fraction therefore steps at both zone
boundaries (0 → 1% at `kill`, 50%·normal → normal at `3·kill`) rather than
varying continuously. -/
theorem claim_C4_survival_adjust_amended (bankroll kill normal : ℚ) :
    (survival_adjust bankroll kill normal = (0, true) ↔ bankroll ≤ kill) ∧
    (kill < bankroll → bankroll < kill * 3 →
      survival_adjust bankroll kill normal =
        (max (normal * ((bankroll - kill) / (kill * 3 - kill)) * (5/10)) (1/100), false)) ∧
    (kill < bankroll → ¬ bankroll < kill * 3 →
      survival_adjust bankroll kill normal = (normal, false)) := by
  refine ⟨?_, ?_, ?_⟩
  · unfold survival_adjust
    split_ifs with h1 h2
    · simp [h1]
    · simp [h1]
    · simp [h1]
  · intro h1 h2
    unfold survival_adjust
    rw [if_neg (not_le.mpr h1), if_pos h2]
  · intro h1 h2
    unfold survival_adjust
    rw [if_neg (not_le.mpr h1), if_neg h2]

/-- Claim C4 witness: the amended theorem applied inside the buffer zone
(bankroll 20, kill 10, normal fraction 0.20). -/
theorem claim_C4_witness :
    survival_adjust 20 10 (2/10)
      = (max ((2/10) * ((20 - 10) / (10 * 3 - 10)) * (5/10)) (1/100), false) :=
  (claim_C4_survival_adjust_amended 20 10 (2/10)).2.1 (by norm_num) (by norm_num)

theorem execute_trade_some_shape
    {inner : PortfolioInner} {newId : String} {now : ℤ}
    {market_id question : String} {direction : Direction}
    {market_yes_price fair_value edge bet_size0 market_volume : ℚ}
    {sim : SimConfig} {o : ExecOracle} {tr : Trade} {inner1 : PortfolioInner}
    (h : execute_trade inner newId now market_id question direction
      market_yes_price fair_value edge bet_size0 sim market_volume o = some (tr, inner1)) :
    ∃ raw_price bet_size2 bet_size,
      ¬ initialBet inner.balance bet_size0 ≤ 0 ∧
      fillStage sim (initialBet inner.balance bet_size0) market_volume o = some bet_size2 ∧
      directionPrice direction market_yes_price = some raw_price ∧
      ¬ raw_price ≤ 0 ∧
      clampedBet inner.balance bet_size2 (entryGasFee sim o) (entryMakerTaker sim bet_size2)
        = some bet_size ∧
      tr = openedTrade inner newId now market_id question direction
        market_yes_price raw_price fair_value edge bet_size2 bet_size sim o ∧
      inner1 = openedState inner tr (entryGasFee sim o) (entryMakerTaker sim bet_size2) := by
  unfold execute_trade at h
  split at h
  · cases h
  · rename_i hbet1
    split at h
    · cases h
    · rename_i bet_size2 hfillres
      unfold execute_trade_core at h
      split at h
      · cases h
      · rename_i raw_price hdp
        split at h
        · cases h
        · rename_i hraw
          split at h
          · cases h
          · rename_i bet_size hc
            injection h with h1
            injection h1 with htr hinner
            exact ⟨raw_price, bet_size2, bet_size, hbet1, hfillres, hdp, hraw, hc,
              htr.symm, by rw [← htr]; exact hinner.symm⟩

/-- Claim C9: every successful `execute_trade` records an entry price of at
most 0.99 — even with all simulation effects disabled — and when the raw
direction-adjusted market price exceeds 0.99 under `SimConfig::disabled()`,
the stored entry price is exactly 0.99 and the share count is computed as
`bet_size / 0.99` (rounded to 4 decimal places, as all share counts are),
not as `bet_size` over the raw price. -/
theorem claim_C9_entry_price_clamp
    {inner : PortfolioInner} {newId : String} {now : ℤ}
    {market_id question : String} {direction : Direction}
    {market_yes_price fair_value edge bet_size0 market_volume raw : ℚ}
    {sim : SimConfig} {o : ExecOracle} {tr : Trade} {inner1 : PortfolioInner}
    (h : execute_trade inner newId now market_id question direction
      market_yes_price fair_value edge bet_size0 sim market_volume o = some (tr, inner1)) :
    tr.entry_price ≤ 99/100 ∧
    (sim = SimConfig.disabled → directionPrice direction market_yes_price = some raw →
      99/100 < raw →
      tr.entry_price = 99/100 ∧ tr.shares = roundDp 4 (tr.bet_size / (99/100))) := by
  obtain ⟨raw_price, bet_size2, bet_size, hb1, hfill, hdp, hraw, hc, htr, hinner⟩ :=
    execute_trade_some_shape h
  constructor
  · rw [htr]
    simp only [openedTrade, adjustedEntryPrice]
    exact min_le_right _ _
  · intro hsim hdp2 hgt
    have hraweq : raw_price = raw := by
      rw [hdp] at hdp2
      injection hdp2
    have hadj : entryAdjustment sim bet_size2 market_yes_price = 0 := by
      rw [hsim]
      simp [entryAdjustment, SimConfig.disabled]
    have hmin : adjustedEntryPrice sim bet_size2 market_yes_price raw_price = 99/100 := by
      unfold adjustedEntryPrice
      rw [hadj, hraweq]
      have h99 : (99:ℚ)/100 ≤ raw * (1 + 0) := by linarith
      exact min_eq_right h99
    rw [htr]
    simp [openedTrade, hmin]

/-- Claim C9 witness: raw Yes price 0.995 > 0.99 with the simulation disabled;
the first conjunct checks the call succeeds, the second applies the claim. -/
theorem claim_C9_witness :
    (execute_trade (Portfolio.new 100 0) "t9" 0 "m1" "q" Direction.Yes
      (199/200) (1/2) 0 10 SimConfig.disabled 0 ⟨1, 1, 7/10, 0⟩).isSome = true ∧
    (execute_trade (Portfolio.new 100 0) "t9" 0 "m1" "q" Direction.Yes
      (199/200) (1/2) 0 10 SimConfig.disabled 0 ⟨1, 1, 7/10, 0⟩).elim True (fun p =>
        p.1.entry_price = 99/100 ∧ p.1.shares = roundDp 4 (p.1.bet_size / (99/100))) := by
  constructor
  · norm_num [execute_trade, execute_trade_core, initialBet, fillStage, Portfolio.new,
      SimConfig.disabled, directionPrice, clampedBet, entryGasFee, entryMakerTaker,
      Option.isSome]
  · cases hE : execute_trade (Portfolio.new 100 0) "t9" 0 "m1" "q" Direction.Yes
        (199/200) (1/2) 0 10 SimConfig.disabled 0 ⟨1, 1, 7/10, 0⟩ with
    | none => trivial
    | some p =>
      exact (claim_C9_entry_price_clamp
        (by rw [hE] : execute_trade (Portfolio.new 100 0) "t9" 0 "m1" "q" Direction.Yes
          (199/200) (1/2) 0 10 SimConfig.disabled 0 ⟨1, 1, 7/10, 0⟩ = some (p.1, p.2))).2
        rfl (by rfl : directionPrice Direction.Yes (199/200) = some (199/200))
        (by norm_num)

theorem survival_adjust_not_dead {bankroll kill normal : ℚ} (h : kill < bankroll) :
    (survival_adjust bankroll kill normal).2 = false := by
  unfold survival_adjust
  rw [if_neg (not_le.mpr h)]
  split_ifs <;> rfl

/-- Claim C7 counterexample: a verdict with fair value 0.90 (confidence 0.90,
balance 100, kill 15, initial 100, reserve 10%, min confidence 0.60, Kelly
multiplier 1/3, max fraction 25%) passes every earlier guard and is rejected as
a probable calibration error, although the believed edge versus the market
price the checker itself estimates is |0.90 − 0.70| = 0.20 ≤ 0.35: the sanity
bound is applied to |fair_value − 0.50|, not to the edge versus the current
market price. -/
theorem claim_C7_counterexample :
    riskCheck Direction.Yes (9/10) (9/10) 100 15 100 (1/10) (6/10) (1/3) (1/4)
      = { approved := false, position_size := 0, reason := RiskReason.edgeTooLarge } ∧
    |(9:ℚ)/10 - riskMarketEstimate Direction.Yes (9/10)| ≤ 35/100 := by
  constructor
  · unfold riskCheck
    rw [if_neg (by simp : ¬ (Direction.Yes = Direction.Skip))]
    norm_num [survival_adjust, abs_of_nonneg]
  · norm_num [riskMarketEstimate, abs_of_nonneg]

/-- Claim C7 (amended): for every verdict passing the earlier guards
(direction not Skip, balance above the kill threshold, positive balance after
the reserve, confidence at least the minimum), the Risk Manager rejects with
the calibration-error reason (approved = false, size 0) exactly when
`|fair_value − 0.50|` — the distance of the believed fair value from 50%, the
code's proxy for the believed edge, not the edge versus the current market
price — exceeds the 35% sanity bound. -/
theorem claim_C7_risk_edge_amended
    (direction : Direction) (confidence fair_value_yes balance kill_threshold
      initial_balance balance_reserve_pct min_confidence kelly_fraction
      effective_max_pct : ℚ)
    (h1 : ¬ direction = Direction.Skip)
    (h2 : kill_threshold < balance)
    (h3 : 0 < balance - initial_balance * balance_reserve_pct)
    (h4 : min_confidence ≤ confidence) :
    (35/100 < |fair_value_yes - 1/2| →
      riskCheck direction confidence fair_value_yes balance kill_threshold
        initial_balance balance_reserve_pct min_confidence kelly_fraction effective_max_pct
      = { approved := false, position_size := 0, reason := RiskReason.edgeTooLarge }) ∧
    (|fair_value_yes - 1/2| ≤ 35/100 →
      (riskCheck direction confidence fair_value_yes balance kill_threshold
        initial_balance balance_reserve_pct min_confidence kelly_fraction
        effective_max_pct).reason ≠ RiskReason.edgeTooLarge) := by
  have hdead : (survival_adjust balance kill_threshold effective_max_pct).2 = false :=
    survival_adjust_not_dead h2
  constructor
  · intro hedge
    unfold riskCheck
    rw [if_neg h1, if_neg (not_not_intro h2), if_neg (not_le.mpr h3),
      if_neg (not_lt.mpr h4), hdead]
    rw [if_neg (by simp : ¬ (false = true)), if_pos hedge]
  · intro hedge
    unfold riskCheck
    rw [if_neg h1, if_neg (not_not_intro h2), if_neg (not_le.mpr h3),
      if_neg (not_lt.mpr h4), hdead]
    rw [if_neg (by simp : ¬ (false = true)), if_neg (not_lt.mpr hedge)]
    split_ifs <;> simp

/-- Claim C7 witness: the amended theorem applied to the concrete rejected
verdict of the counterexample (fair value 0.90). -/
theorem claim_C7_witness :
    riskCheck Direction.Yes (9/10) (9/10) 100 15 100 (1/10) (6/10) (1/3) (1/4)
      = { approved := false, position_size := 0, reason := RiskReason.edgeTooLarge } :=
  (claim_C7_risk_edge_amended Direction.Yes (9/10) (9/10) 100 15 100 (1/10) (6/10)
    (1/3) (1/4) (by simp) (by norm_num) (by norm_num) (by norm_num)).1
    (by norm_num [abs_of_nonneg])

theorem resolveStep_resolved_mono (markets : List Market) (tp sl : ℚ) (sim : SimConfig)
    (now : ℤ) (gas : ℕ → ℚ) (acc : ResolveAcc) (t : Trade) :
    ∃ s, (resolveStep markets tp sl sim now gas acc t).resolved = acc.resolved ++ s := by
  unfold resolveStep
  rcases hd : tradeDecision markets tp sl now t with _ | ⟨cp, _ | reason⟩
  · exact ⟨[], by simp⟩
  · exact ⟨[], by simp⟩
  · exact ⟨[(closeTrade sim (gas acc.gasIdx) now reason cp acc.balance t).1], rfl⟩

theorem foldl_resolveStep_resolved_mono (markets : List Market) (tp sl : ℚ)
    (sim : SimConfig) (now : ℤ) (gas : ℕ → ℚ) (l : List Trade) (acc : ResolveAcc) :
    ∃ s, (l.foldl (resolveStep markets tp sl sim now gas) acc).resolved
      = acc.resolved ++ s := by
  induction l generalizing acc with
  | nil => exact ⟨[], by simp⟩
  | cons a l ih =>
    obtain ⟨s1, hs1⟩ := resolveStep_resolved_mono markets tp sl sim now gas acc a
    obtain ⟨s2, hs2⟩ := ih (resolveStep markets tp sl sim now gas acc a)
    refine ⟨s1 ++ s2, ?_⟩
    rw [List.foldl_cons, hs2, hs1, List.append_assoc]

theorem closeTrade_id (sim : SimConfig) (gasDraw : ℚ) (now : ℤ) (reason : ExitReason)
    (cp balance : ℚ) (t : Trade) :
    (closeTrade sim gasDraw now reason cp balance t).1.id = t.id := rfl

theorem closeTrade_exit_reason (sim : SimConfig) (gasDraw : ℚ) (now : ℤ)
    (reason : ExitReason) (cp balance : ℚ) (t : Trade) :
    (closeTrade sim gasDraw now reason cp balance t).1.exit_reason = some reason := rfl

theorem foldl_resolveStep_closes {markets : List Market} {tp sl : ℚ} {sim : SimConfig}
    {now : ℤ} {gas : ℕ → ℚ} {l : List Trade} {t : Trade} {cp : ℚ} {reason : ExitReason}
    (ht : t ∈ l)
    (hd : tradeDecision markets tp sl now t = some (cp, some reason)) :
    ∀ acc, ∃ ct ∈ (l.foldl (resolveStep markets tp sl sim now gas) acc).resolved,
      ct.id = t.id ∧ ct.exit_reason = some reason := by
  induction l with
  | nil => cases ht
  | cons a l ih =>
    intro acc
    rcases List.mem_cons.mp ht with rfl | hmem
    · have hstep : (resolveStep markets tp sl sim now gas acc t).resolved
          = acc.resolved ++ [(closeTrade sim (gas acc.gasIdx) now reason cp acc.balance t).1] := by
        unfold resolveStep
        rw [hd]
      obtain ⟨s, hs⟩ := foldl_resolveStep_resolved_mono markets tp sl sim now gas l
        (resolveStep markets tp sl sim now gas acc t)
      refine ⟨(closeTrade sim (gas acc.gasIdx) now reason cp acc.balance t).1, ?_, rfl, rfl⟩
      rw [List.foldl_cons, hs, hstep]
      simp
    · obtain ⟨ct, hct, hcid, hcr⟩ := ih hmem (resolveStep markets tp sl sim now gas acc a)
      exact ⟨ct, by rw [List.foldl_cons]; exact hct, hcid, hcr⟩

theorem resolve_resolved_eq (inner : PortfolioInner) (markets : List Market)
    (tp sl : ℚ) (sim : SimConfig) (now : ℤ) (gas : ℕ → ℚ) :
    (resolve_with_prices inner markets tp sl sim now gas).2
      = (inner.open_trades.foldl (resolveStep markets tp sl sim now gas)
          (initAcc inner)).resolved := rfl

theorem resolve_open_trades_eq (inner : PortfolioInner) (markets : List Market)
    (tp sl : ℚ) (sim : SimConfig) (now : ℤ) (gas : ℕ → ℚ) :
    (resolve_with_prices inner markets tp sl sim now gas).1.open_trades
      = (inner.open_trades.foldl (resolveStep markets tp sl sim now gas)
          (initAcc inner)).still_open := rfl

theorem resolve_balance_eq (inner : PortfolioInner) (markets : List Market)
    (tp sl : ℚ) (sim : SimConfig) (now : ℤ) (gas : ℕ → ℚ) :
    (resolve_with_prices inner markets tp sl sim now gas).1.balance
      = (inner.open_trades.foldl (resolveStep markets tp sl sim now gas)
          (initAcc inner)).balance := rfl

/-- Claim C6: every open Scalp-mode trade whose current direction-adjusted
price is at or above its stored take-profit price is closed by
`resolve_with_prices` with exit reason `TakeProfit` — never `StopLoss` — even
when the stop-loss price is also crossed, because the SCALP arm checks
take-profit first. -/
theorem claim_C6_scalp_tp_first
    (inner : PortfolioInner) (markets : List Market) (tp_pct sl_pct : ℚ)
    (sim : SimConfig) (now : ℤ) (gas : ℕ → ℚ) (t : Trade) (m : Market) (tpPrice : ℚ)
    (ht : t ∈ inner.open_trades)
    (hdir : ¬ t.direction = Direction.Skip)
    (hmode : t.trade_mode = some "SCALP")
    (htp : t.take_profit = some tpPrice)
    (hm : findMarket markets t.market_id = some m)
    (hcp : tpPrice ≤ (directionPrice t.direction m.yes_price).getD 0) :
    ∃ ct ∈ (resolve_with_prices inner markets tp_pct sl_pct sim now gas).2,
      ct.id = t.id ∧ ct.exit_reason = some ExitReason.TakeProfit := by
  have hmode2 : t.trade_mode.getD "SWING" = "SCALP" := by rw [hmode]; rfl
  have htrig : tpTrigger t ((directionPrice t.direction m.yes_price).getD 0)
      = some ExitReason.TakeProfit := by
    unfold tpTrigger
    rw [htp]
    simp [hcp]
  have hexit : modeExit tp_pct sl_pct now t ((directionPrice t.direction m.yes_price).getD 0)
      = some ExitReason.TakeProfit := by
    unfold modeExit
    rw [if_pos hmode2]
    unfold scalpExit
    rw [htrig]
    rfl
  have hd : tradeDecision markets tp_pct sl_pct now t
      = some ((directionPrice t.direction m.yes_price).getD 0,
          some ExitReason.TakeProfit) := by
    unfold tradeDecision
    rw [if_neg hdir, hm]
    show some ((directionPrice t.direction m.yes_price).getD 0,
        modeExit tp_pct sl_pct now t ((directionPrice t.direction m.yes_price).getD 0)) = _
    rw [hexit]
  rw [resolve_resolved_eq]
  exact foldl_resolveStep_closes ht hd _

/-- Claim C10: for an open Conviction-mode trade with no judge confidence
recorded, `resolve_with_prices` substitutes the default confidence 0.5, which
is below the 0.70 safety-valve bound, so an unrealized loss worse than −30% of
stake alone forces a `SafetyValve` exit. -/
theorem claim_C10_conviction_default_confidence
    (inner : PortfolioInner) (markets : List Market) (tp_pct sl_pct : ℚ)
    (sim : SimConfig) (now : ℤ) (gas : ℕ → ℚ) (t : Trade) (m : Market)
    (ht : t ∈ inner.open_trades)
    (hdir : ¬ t.direction = Direction.Skip)
    (hmode : t.trade_mode = some "CONVICTION")
    (hconf : t.judge_confidence = none)
    (hm : findMarket markets t.market_id = some m)
    (hloss : unrealizedPnlPct t ((directionPrice t.direction m.yes_price).getD 0) < -30) :
    t.judge_confidence.getD (1/2) = 1/2 ∧ ((1:ℚ)/2 < 7/10) ∧
    ∃ ct ∈ (resolve_with_prices inner markets tp_pct sl_pct sim now gas).2,
      ct.id = t.id ∧ ct.exit_reason = some ExitReason.SafetyValve := by
  refine ⟨by rw [hconf]; rfl, by norm_num, ?_⟩
  have hmode2 : t.trade_mode.getD "SWING" = "CONVICTION" := by rw [hmode]; rfl
  have hexit : modeExit tp_pct sl_pct now t ((directionPrice t.direction m.yes_price).getD 0)
      = some ExitReason.SafetyValve := by
    unfold modeExit
    rw [if_neg (by rw [hmode2]; simp), if_neg (by rw [hmode2]; simp), if_pos hmode2]
    unfold convictionExit
    rw [if_pos ⟨hloss, by rw [hconf]; norm_num⟩]
  have hd : tradeDecision markets tp_pct sl_pct now t
      = some ((directionPrice t.direction m.yes_price).getD 0,
          some ExitReason.SafetyValve) := by
    unfold tradeDecision
    rw [if_neg hdir, hm]
    show some ((directionPrice t.direction m.yes_price).getD 0,
        modeExit tp_pct sl_pct now t ((directionPrice t.direction m.yes_price).getD 0)) = _
    rw [hexit]
  rw [resolve_resolved_eq]
  exact foldl_resolveStep_closes ht hd _

theorem firstSome_eq_none {a b : Option ExitReason} (h : firstSome a b = none) :
    a = none ∧ b = none := by
  cases a with
  | none => exact ⟨rfl, h⟩
  | some r => exact absurd h (by simp [firstSome])

theorem timeTrigger_none_of {now2 : ℤ} {t : Trade}
    (h : ∀ mh, t.max_hold_until = some mh → ¬ mh < now2) :
    timeTrigger now2 t = none := by
  unfold timeTrigger
  cases hmh : t.max_hold_until with
  | none => rfl
  | some mh =>
    show (if mh < now2 then some ExitReason.TimeExpiry else none) = none
    rw [if_neg (h mh hmh)]

theorem modeExit_time_shift {tp sl : ℚ} {now1 now2 : ℤ} {t : Trade} {cp : ℚ}
    (h : modeExit tp sl now1 t cp = none)
    (ht2 : timeTrigger now2 t = none) :
    modeExit tp sl now2 t cp = none := by
  unfold modeExit at h ⊢
  by_cases h1 : t.trade_mode.getD "SWING" = "SCALP"
  · rw [if_pos h1] at h ⊢
    unfold scalpExit at h ⊢
    obtain ⟨ha, hb⟩ := firstSome_eq_none h
    obtain ⟨hsl, _⟩ := firstSome_eq_none hb
    rw [ha, hsl, ht2]
    rfl
  · rw [if_neg h1] at h ⊢
    by_cases h2 : t.trade_mode.getD "SWING" = "SWING"
    · rw [if_pos h2] at h ⊢
      unfold swingExit at h ⊢
      obtain ⟨ha, hb⟩ := firstSome_eq_none h
      obtain ⟨hec, hc⟩ := firstSome_eq_none hb
      obtain ⟨hsl, _⟩ := firstSome_eq_none hc
      rw [ha, hec, hsl, ht2]
      rfl
    · rw [if_neg h2] at h ⊢
      by_cases h3 : t.trade_mode.getD "SWING" = "CONVICTION"
      · rw [if_pos h3] at h ⊢
        exact h
      · rw [if_neg h3] at h ⊢
        exact h

theorem tradeDecision_kept_shift {markets : List Market} {tp sl : ℚ}
    {now1 now2 : ℤ} {t : Trade} {cp : ℚ}
    (h : tradeDecision markets tp sl now1 t = some (cp, none))
    (ht2 : timeTrigger now2 t = none) :
    tradeDecision markets tp sl now2 t = some (cp, none) := by
  unfold tradeDecision at h ⊢
  by_cases hd : t.direction = Direction.Skip
  · rw [if_pos hd] at h
    cases h
  · rw [if_neg hd] at h ⊢
    cases hm : findMarket markets t.market_id with
    | none =>
      rw [hm] at h
      have h2 : some (t.entry_price, some ExitReason.MarketResolved) = some (cp, none) := h
      simp at h2
    | some m =>
      rw [hm] at h
      have h2 : some ((directionPrice t.direction m.yes_price).getD 0,
          modeExit tp sl now1 t ((directionPrice t.direction m.yes_price).getD 0))
          = some (cp, none) := h
      injection h2 with h3
      have hcp : (directionPrice t.direction m.yes_price).getD 0 = cp :=
        congrArg Prod.fst h3
      have hme : modeExit tp sl now1 t ((directionPrice t.direction m.yes_price).getD 0)
          = none := congrArg Prod.snd h3
      show some ((directionPrice t.direction m.yes_price).getD 0,
          modeExit tp sl now2 t ((directionPrice t.direction m.yes_price).getD 0))
        = some (cp, none)
      rw [modeExit_time_shift hme ht2, hcp]

theorem resolveStep_still_open_cases (markets : List Market) (tp sl : ℚ)
    (sim : SimConfig) (now : ℤ) (gas : ℕ → ℚ) (acc : ResolveAcc) (t : Trade) :
    (resolveStep markets tp sl sim now gas acc t).still_open = acc.still_open ∨
    ((resolveStep markets tp sl sim now gas acc t).still_open = acc.still_open ++ [t] ∧
      ∃ cp, tradeDecision markets tp sl now t = some (cp, none)) := by
  unfold resolveStep
  rcases hd : tradeDecision markets tp sl now t with _ | ⟨cp, _ | reason⟩
  · exact Or.inl rfl
  · exact Or.inr ⟨rfl, cp, rfl⟩
  · exact Or.inl rfl

theorem foldl_resolveStep_still_open {markets : List Market} {tp sl : ℚ}
    {sim : SimConfig} {now : ℤ} {gas : ℕ → ℚ} :
    ∀ (l : List Trade) (acc : ResolveAcc),
      ∀ x ∈ (l.foldl (resolveStep markets tp sl sim now gas) acc).still_open,
        x ∈ acc.still_open ∨ ∃ cp, tradeDecision markets tp sl now x = some (cp, none) := by
  intro l
  induction l with
  | nil =>
    intro acc x hx
    exact Or.inl hx
  | cons a l ih =>
    intro acc x hx
    rw [List.foldl_cons] at hx
    rcases ih _ x hx with h | h
    · rcases resolveStep_still_open_cases markets tp sl sim now gas acc a
        with he | ⟨he, cp, hd⟩
      · rw [he] at h
        exact Or.inl h
      · rw [he] at h
        rcases List.mem_append.mp h with h1 | h1
        · exact Or.inl h1
        · have hxa : x = a := List.mem_singleton.mp h1
          exact Or.inr ⟨cp, by rw [hxa]; exact hd⟩
    · exact Or.inr h

theorem foldl_resolveStep_all_kept {markets : List Market} {tp sl : ℚ}
    {sim : SimConfig} {now : ℤ} {gas : ℕ → ℚ} :
    ∀ (l : List Trade) (acc : ResolveAcc),
      (∀ t ∈ l, ∃ cp, tradeDecision markets tp sl now t = some (cp, none)) →
      l.foldl (resolveStep markets tp sl sim now gas) acc
        = { acc with still_open := acc.still_open ++ l } := by
  intro l
  induction l with
  | nil =>
    intro acc _
    simp
  | cons a l ih =>
    intro acc h
    obtain ⟨cp, hcp⟩ := h a (List.mem_cons_self a l)
    have hstep : resolveStep markets tp sl sim now gas acc a
        = { acc with still_open := acc.still_open ++ [a] } := by
      unfold resolveStep
      rw [hcp]
    rw [List.foldl_cons, hstep, ih _ (fun t ht => h t (List.mem_cons_of_mem a ht))]
    simp

/-- Claim C5: if `resolve_with_prices` is called a second time with the same
market snapshot, the same legacy percentages and the same simulation config,
and no max-hold deadline passes between the calls (the only exit condition
that can newly trigger on unchanged inputs), the second call returns an empty
vector and leaves the open-trade set (members and order) and the balance
unchanged. -/
theorem claim_C5_resolve_idempotent
    (inner : PortfolioInner) (markets : List Market) (tp sl : ℚ) (sim : SimConfig)
    (now1 now2 : ℤ) (gas1 gas2 : ℕ → ℚ)
    (htime : ∀ t ∈ (resolve_with_prices inner markets tp sl sim now1 gas1).1.open_trades,
      ∀ mh, t.max_hold_until = some mh → ¬ mh < now2) :
    (resolve_with_prices (resolve_with_prices inner markets tp sl sim now1 gas1).1
        markets tp sl sim now2 gas2).2 = [] ∧
    (resolve_with_prices (resolve_with_prices inner markets tp sl sim now1 gas1).1
        markets tp sl sim now2 gas2).1.open_trades
      = (resolve_with_prices inner markets tp sl sim now1 gas1).1.open_trades ∧
    (resolve_with_prices (resolve_with_prices inner markets tp sl sim now1 gas1).1
        markets tp sl sim now2 gas2).1.balance
      = (resolve_with_prices inner markets tp sl sim now1 gas1).1.balance := by
  have hkept1 : ∀ t ∈ (resolve_with_prices inner markets tp sl sim now1 gas1).1.open_trades,
      ∃ cp, tradeDecision markets tp sl now1 t = some (cp, none) := by
    intro t ht
    rw [resolve_open_trades_eq] at ht
    rcases foldl_resolveStep_still_open _ _ t ht with h | h
    · exact absurd h (List.not_mem_nil t)
    · exact h
  have hkept2 : ∀ t ∈ (resolve_with_prices inner markets tp sl sim now1 gas1).1.open_trades,
      ∃ cp, tradeDecision markets tp sl now2 t = some (cp, none) := by
    intro t ht
    obtain ⟨cp, hcp⟩ := hkept1 t ht
    exact ⟨cp, tradeDecision_kept_shift hcp (timeTrigger_none_of (htime t ht))⟩
  have hfold := @foldl_resolveStep_all_kept markets tp sl sim now2 gas2
    (resolve_with_prices inner markets tp sl sim now1 gas1).1.open_trades
    (initAcc (resolve_with_prices inner markets tp sl sim now1 gas1).1)
    hkept2
  refine ⟨?_, ?_, ?_⟩
  · rw [resolve_resolved_eq, hfold]
    simp [initAcc]
  · rw [resolve_open_trades_eq, hfold]
    simp [initAcc]
  · rw [resolve_balance_eq, hfold]
    simp [initAcc]

/-- A concrete open trade for the witnesses: $10 on Yes at entry 0.50
(20 shares) on market "m1", with no exit plan set. -/
def sampleTrade : Trade :=
  { id := "w1"
    timestamp := 0
    market_id := "m1"
    question := "q"
    direction := Direction.Yes
    entry_price := 1/2
    fair_value := 6/10
    edge := 1/10
    bet_size := 10
    shares := 20
    status := TradeStatus.Open
    exit_price := none
    pnl := 0
    balance_after := 90
    order_id := none
    trade_mode := none
    take_profit := none
    stop_loss := none
    max_hold_until := none
    category := none
    specialist_desk := none
    bull_probability := none
    bear_probability := none
    judge_fair_value := none
    judge_confidence := none
    judge_model := none
    exit_reason := none
    hold_duration_hours := none
    token_id := none
    raw_entry_price := some (1/2)
    raw_exit_price := none
    entry_gas_fee := 0
    exit_gas_fee := 0
    entry_slippage := 0
    exit_slippage := 0
    platform_fee := 0
    maker_taker_fee := 0 }

/-- A concrete portfolio holding one open trade (balance 90 of 100). -/
def samplePortfolio (t : Trade) : PortfolioInner :=
  { balance := 90
    initial_balance := 100
    trades := [t]
    open_trades := [t]
    win_count := 0
    loss_count := 0
    total_api_cost := 0
    peak_balance := 100
    max_drawdown := 0
    start_time := 0
    consecutive_losses := 0 }

/-- The sample trade as a Scalp position whose TP (0.60) and SL (0.70) are
both crossed at the current price 0.65. -/
def scalpSample : Trade :=
  { sampleTrade with
    trade_mode := some "SCALP"
    take_profit := some (6/10)
    stop_loss := some (7/10) }

/-- The sample trade as a Conviction position with no judge confidence. -/
def convictionSample : Trade :=
  { sampleTrade with trade_mode := some "CONVICTION" }

/-- Claim C6 witness: the Scalp trade above, at market price 0.65 where both
the TP price 0.60 and the SL price 0.70 are crossed, closes with TakeProfit. -/
theorem claim_C6_witness :
    ∃ ct ∈ (resolve_with_prices (samplePortfolio scalpSample)
        [{ id := "m1", yes_price := 13/20 }] 0 0 SimConfig.disabled 0 (fun _ => 0)).2,
      ct.id = scalpSample.id ∧ ct.exit_reason = some ExitReason.TakeProfit :=
  claim_C6_scalp_tp_first (samplePortfolio scalpSample)
    [{ id := "m1", yes_price := 13/20 }] 0 0 SimConfig.disabled 0 (fun _ => 0)
    scalpSample { id := "m1", yes_price := 13/20 } (6/10)
    (by simp [samplePortfolio])
    (by simp [scalpSample, sampleTrade])
    rfl
    rfl
    (by simp [findMarket, scalpSample, sampleTrade])
    (by norm_num [directionPrice, scalpSample, sampleTrade])

/-- Claim C10 witness: the Conviction trade above at market price 0.30
(unrealized −40% of stake) closes via the safety valve under the default
confidence 0.5. -/
theorem claim_C10_witness :
    convictionSample.judge_confidence.getD (1/2) = 1/2 ∧ ((1:ℚ)/2 < 7/10) ∧
    ∃ ct ∈ (resolve_with_prices (samplePortfolio convictionSample)
        [{ id := "m1", yes_price := 3/10 }] 0 0 SimConfig.disabled 0 (fun _ => 0)).2,
      ct.id = convictionSample.id ∧ ct.exit_reason = some ExitReason.SafetyValve :=
  claim_C10_conviction_default_confidence (samplePortfolio convictionSample)
    [{ id := "m1", yes_price := 3/10 }] 0 0 SimConfig.disabled 0 (fun _ => 0)
    convictionSample { id := "m1", yes_price := 3/10 }
    (by simp [samplePortfolio])
    (by simp [convictionSample, sampleTrade])
    rfl
    rfl
    (by simp [findMarket, convictionSample, sampleTrade])
    (by norm_num [unrealizedPnlPct, convictionSample, sampleTrade, directionPrice])

/-- Claim C5 witness: a portfolio with one open SWING trade with no triggers
set; the second call of `resolve_with_prices` on the same snapshot returns no
closed trades and leaves the open set and the balance unchanged. -/
theorem claim_C5_witness :
    (resolve_with_prices (resolve_with_prices (samplePortfolio sampleTrade)
        [{ id := "m1", yes_price := 1/2 }] 0 0 SimConfig.disabled 0 (fun _ => 0)).1
        [{ id := "m1", yes_price := 1/2 }] 0 0 SimConfig.disabled 0 (fun _ => 0)).2 = [] ∧
    (resolve_with_prices (resolve_with_prices (samplePortfolio sampleTrade)
        [{ id := "m1", yes_price := 1/2 }] 0 0 SimConfig.disabled 0 (fun _ => 0)).1
        [{ id := "m1", yes_price := 1/2 }] 0 0 SimConfig.disabled 0 (fun _ => 0)).1.open_trades
      = (resolve_with_prices (samplePortfolio sampleTrade)
          [{ id := "m1", yes_price := 1/2 }] 0 0 SimConfig.disabled 0 (fun _ => 0)).1.open_trades ∧
    (resolve_with_prices (resolve_with_prices (samplePortfolio sampleTrade)
        [{ id := "m1", yes_price := 1/2 }] 0 0 SimConfig.disabled 0 (fun _ => 0)).1
        [{ id := "m1", yes_price := 1/2 }] 0 0 SimConfig.disabled 0 (fun _ => 0)).1.balance
      = (resolve_with_prices (samplePortfolio sampleTrade)
          [{ id := "m1", yes_price := 1/2 }] 0 0 SimConfig.disabled 0 (fun _ => 0)).1.balance :=
  claim_C5_resolve_idempotent (samplePortfolio sampleTrade)
    [{ id := "m1", yes_price := 1/2 }] 0 0 SimConfig.disabled 0 0 (fun _ => 0) (fun _ => 0)
    (by
      intro t ht mh hmh
      rw [resolve_open_trades_eq] at ht
      have hopen : (samplePortfolio sampleTrade).open_trades = [sampleTrade] := rfl
      rw [hopen] at ht
      simp only [List.foldl_cons, List.foldl_nil] at ht
      have hd : tradeDecision [{ id := "m1", yes_price := 1/2 }] 0 0 0 sampleTrade
          = some (1/2, none) := rfl
      rw [show (resolveStep [{ id := "m1", yes_price := 1/2 }] 0 0 SimConfig.disabled 0
          (fun _ => 0) (initAcc (samplePortfolio sampleTrade))
          sampleTrade).still_open = [sampleTrade] from by
        unfold resolveStep
        rw [hd]
        rfl] at ht
      have ht2 : t = sampleTrade := List.mem_singleton.mp ht
      rw [ht2] at hmh
      exact Option.noConfusion hmh)

theorem execute_trade_disabled_basic
    {inner : PortfolioInner} {newId : String} {now : ℤ} {mid q : String}
    {dir : Direction} {myp fv edge bet0 vol : ℚ} {o : ExecOracle}
    {tr : Trade} {inner1 : PortfolioInner}
    (hble : bet0 ≤ inner.balance)
    (hexec : execute_trade inner newId now mid q dir myp fv edge bet0
      SimConfig.disabled vol o = some (tr, inner1)) :
    tr.bet_size = bet0 ∧ inner1.balance = inner.balance - bet0 := by
  obtain ⟨raw, b2, b, hb1, hfill, hdp, hraw, hc, htr, hinner⟩ :=
    execute_trade_some_shape hexec
  have hib : initialBet inner.balance bet0 = bet0 := by
    unfold initialBet
    rw [if_neg (not_lt.mpr hble)]
  have hb2 : b2 = bet0 := by
    unfold fillStage at hfill
    rw [if_neg (by simp [SimConfig.disabled])] at hfill
    rw [hib] at hfill
    injection hfill with h
    exact h.symm
  have hgas : entryGasFee SimConfig.disabled o = 0 := by
    simp [entryGasFee, SimConfig.disabled]
  have hmt : entryMakerTaker SimConfig.disabled b2 = 0 := by
    simp [entryMakerTaker, SimConfig.disabled]
  have hbb : b = bet0 := by
    unfold clampedBet at hc
    rw [hgas, hmt, hb2] at hc
    rw [if_neg (by linarith : ¬ inner.balance < bet0 + 0 + 0)] at hc
    injection hc with h
    exact h.symm
  constructor
  · rw [htr]
    simp [openedTrade, hbb]
  · have hmt0 : entryMakerTaker SimConfig.disabled bet0 = 0 := by
      simp [entryMakerTaker, SimConfig.disabled]
    rw [hinner, htr]
    simp [openedState, openedTrade, hbb, hgas, hmt0, hb2]

theorem closeTrade_disabled (gasDraw : ℚ) (now : ℤ) (reason : ExitReason)
    (cp balance : ℚ) (t : Trade) :
    (closeTrade SimConfig.disabled gasDraw now reason cp balance t).1.pnl
      = (cp - t.entry_price) * t.shares ∧
    (closeTrade SimConfig.disabled gasDraw now reason cp balance t).1.exit_price = some cp ∧
    (closeTrade SimConfig.disabled gasDraw now reason cp balance t).2
      = balance + (if 0 < t.bet_size + (cp - t.entry_price) * t.shares
          then t.bet_size + (cp - t.entry_price) * t.shares else 0) := by
  have hae : actualExitPrice SimConfig.disabled t.bet_size cp = cp := by
    simp [actualExitPrice, exitSlippagePct, SimConfig.disabled]
  have hg : grossPnl SimConfig.disabled cp t = (cp - t.entry_price) * t.shares := by
    rw [grossPnl, hae]
  have hgas0 : exitGasFeeOf SimConfig.disabled gasDraw = 0 := by
    simp [exitGasFeeOf, SimConfig.disabled]
  have hmt0 : exitMakerTaker SimConfig.disabled cp t = 0 := by
    simp [exitMakerTaker, SimConfig.disabled]
  have hpf0 : platformFeeOf SimConfig.disabled cp t = 0 := by
    simp [platformFeeOf, SimConfig.disabled]
  have hr : returnAmount SimConfig.disabled gasDraw cp t
      = t.bet_size + (cp - t.entry_price) * t.shares := by
    rw [returnAmount, hg, hgas0, hmt0, hpf0]
    ring
  refine ⟨?_, ?_, ?_⟩
  · simp [closeTrade, hg]
  · simp [closeTrade, hae]
  · simp [closeTrade, hr]

theorem resolve_single_resolved (st1 : PortfolioInner) (markets : List Market)
    (tp sl : ℚ) (sim : SimConfig) (now : ℤ) (gas : ℕ → ℚ) (tr1 : Trade)
    (hopen : st1.open_trades = [tr1]) :
    (resolve_with_prices st1 markets tp sl sim now gas).2
      = (resolveStep markets tp sl sim now gas (initAcc st1) tr1).resolved := by
  rw [resolve_resolved_eq, hopen]
  rfl

theorem resolve_single_balance (st1 : PortfolioInner) (markets : List Market)
    (tp sl : ℚ) (sim : SimConfig) (now : ℤ) (gas : ℕ → ℚ) (tr1 : Trade)
    (hopen : st1.open_trades = [tr1]) :
    (resolve_with_prices st1 markets tp sl sim now gas).1.balance
      = (resolveStep markets tp sl sim now gas (initAcc st1) tr1).balance := by
  rw [resolve_balance_eq, hopen]
  rfl

/-- Claim C2 (amended): for a trade opened by `execute_trade` with every
simulation effect disabled, with the requested size at most the starting
balance, whose money-relevant fields (`bet_size`, `entry_price`, `shares`) are
carried unchanged into the open set, and which a later `resolve_with_prices`
call (also with the simulation disabled) closes, the recorded pnl equals
`(exit_price − entry_price) × shares` exactly, and — provided the credited
return `bet_size + pnl` is non-negative, so the floor-at-zero in the source
does not bite — the balance after the close equals
`balance_before_open − requested + bet_size + pnl`. -/
theorem claim_C2_round_trip_amended
    {inner : PortfolioInner} {newId : String} {now : ℤ} {mid q : String}
    {dir : Direction} {myp fv edge bet0 vol : ℚ} {o : ExecOracle}
    {tr : Trade} {inner1 : PortfolioInner}
    {tr1 : Trade} {st1 st2 : PortfolioInner} {ct : Trade}
    {markets : List Market} {tp sl : ℚ} {now2 : ℤ} {gas : ℕ → ℚ}
    (hble : bet0 ≤ inner.balance)
    (hexec : execute_trade inner newId now mid q dir myp fv edge bet0
      SimConfig.disabled vol o = some (tr, inner1))
    (hb : tr1.bet_size = tr.bet_size)
    (he : tr1.entry_price = tr.entry_price)
    (hs : tr1.shares = tr.shares)
    (hstb : st1.balance = inner1.balance)
    (hopen : st1.open_trades = [tr1])
    (hres : resolve_with_prices st1 markets tp sl SimConfig.disabled now2 gas = (st2, [ct]))
    (hpos : 0 ≤ tr1.bet_size + ct.pnl) :
    ct.pnl = (ct.exit_price.getD 0 - tr1.entry_price) * tr1.shares ∧
    st2.balance = inner.balance - bet0 + tr.bet_size + ct.pnl := by
  obtain ⟨hbet, hbal1⟩ := execute_trade_disabled_basic hble hexec
  have hres2 : (resolve_with_prices st1 markets tp sl SimConfig.disabled now2 gas).2
      = [ct] := by rw [hres]
  have hres1 : (resolve_with_prices st1 markets tp sl SimConfig.disabled now2 gas).1
      = st2 := by rw [hres]
  rw [resolve_single_resolved st1 markets tp sl SimConfig.disabled now2 gas tr1 hopen] at hres2
  have hresb : st2.balance
      = (resolveStep markets tp sl SimConfig.disabled now2 gas (initAcc st1) tr1).balance := by
    rw [← hres1]
    exact resolve_single_balance st1 markets tp sl SimConfig.disabled now2 gas tr1 hopen
  rcases hd : tradeDecision markets tp sl now2 tr1 with _ | ⟨cp, _ | reason⟩
  · rw [show (resolveStep markets tp sl SimConfig.disabled now2 gas (initAcc st1) tr1).resolved
        = [] from by unfold resolveStep; rw [hd]; rfl] at hres2
    cases hres2
  · rw [show (resolveStep markets tp sl SimConfig.disabled now2 gas (initAcc st1) tr1).resolved
        = [] from by unfold resolveStep; rw [hd]; rfl] at hres2
    cases hres2
  · have hstep1 : (resolveStep markets tp sl SimConfig.disabled now2 gas (initAcc st1) tr1).resolved
        = [(closeTrade SimConfig.disabled (gas 0) now2 reason cp st1.balance tr1).1] := by
      unfold resolveStep
      rw [hd]
      rfl
    have hstep2 : (resolveStep markets tp sl SimConfig.disabled now2 gas (initAcc st1) tr1).balance
        = (closeTrade SimConfig.disabled (gas 0) now2 reason cp st1.balance tr1).2 := by
      unfold resolveStep
      rw [hd]
      rfl
    rw [hstep1] at hres2
    have hct : (closeTrade SimConfig.disabled (gas 0) now2 reason cp st1.balance tr1).1 = ct := by
      injection hres2
    obtain ⟨hpnl, hexit, hbal2⟩ := closeTrade_disabled (gas 0) now2 reason cp st1.balance tr1
    have hctpnl : ct.pnl = (cp - tr1.entry_price) * tr1.shares := by
      rw [← hct, hpnl]
    have hctexit : ct.exit_price = some cp := by
      rw [← hct, hexit]
    constructor
    · rw [hctpnl, hctexit]
      rfl
    · have hite : (if 0 < tr1.bet_size + (cp - tr1.entry_price) * tr1.shares
          then tr1.bet_size + (cp - tr1.entry_price) * tr1.shares else 0)
          = tr1.bet_size + (cp - tr1.entry_price) * tr1.shares := by
        rw [← hctpnl]
        split_ifs with hif
        · rfl
        · linarith
      rw [hresb, hstep2, hbal2, hite, ← hctpnl, hstb, hbal1, hb, hbet]
      ring

/-- C2 counterexample, run A: the trade opened with requested size 20 against
balance 10 (clamped to 10). -/
def c2aTrade : Trade :=
  { id := "a"
    timestamp := 0
    market_id := "m1"
    question := "q"
    direction := Direction.Yes
    entry_price := 2/5
    fair_value := 1/2
    edge := 0
    bet_size := 10
    shares := 25
    status := TradeStatus.Open
    exit_price := none
    pnl := 0
    balance_after := 0
    order_id := none
    trade_mode := none
    take_profit := none
    stop_loss := none
    max_hold_until := none
    category := none
    specialist_desk := none
    bull_probability := none
    bear_probability := none
    judge_fair_value := none
    judge_confidence := none
    judge_model := none
    exit_reason := none
    hold_duration_hours := none
    token_id := none
    raw_entry_price := some (2/5)
    raw_exit_price := none
    entry_gas_fee := 0
    exit_gas_fee := 0
    entry_slippage := 0
    exit_slippage := 0
    platform_fee := 0
    maker_taker_fee := 0 }

/-- C2 counterexample, run A: the portfolio state after the open. -/
def c2aState : PortfolioInner :=
  { balance := 0
    initial_balance := 10
    trades := [c2aTrade]
    open_trades := [c2aTrade]
    win_count := 0
    loss_count := 0
    total_api_cost := 0
    peak_balance := 10
    max_drawdown := 0
    start_time := 0
    consecutive_losses := 0 }

/-- C2 counterexample, run A: the trade as closed by `MarketResolved`. -/
def c2aCt : Trade :=
  { c2aTrade with
    raw_exit_price := some (2/5)
    exit_price := some (2/5)
    pnl := 0
    exit_reason := some ExitReason.MarketResolved
    hold_duration_hours := some 0
    status := TradeStatus.Lost
    balance_after := 10 }

/-- C2 counterexample, run A: the portfolio state after the close. -/
def c2aSt2 : PortfolioInner :=
  { c2aState with
    balance := 10
    trades := [c2aCt]
    open_trades := []
    loss_count := 1
    consecutive_losses := 1 }

/-- C2 counterexample, run B: the trade opened with size 0.005 at raw price
0.99 (shares round up to 0.0051). -/
def c2bTrade : Trade :=
  { c2aTrade with
    id := "b"
    entry_price := 99/100
    bet_size := 1/200
    shares := 51/10000
    balance_after := 1999/200
    raw_entry_price := some (99/100) }

/-- C2 counterexample, run B: the state after the open. -/
def c2bState : PortfolioInner :=
  { c2aState with
    balance := 1999/200
    trades := [c2bTrade]
    open_trades := [c2bTrade] }

/-- C2 counterexample, run B: the trade with its exit plan set (as the
executor does after opening): Scalp mode with a 0.50 stop-loss. -/
def c2bTrade1 : Trade :=
  { c2bTrade with
    trade_mode := some "SCALP"
    stop_loss := some (1/2) }

/-- C2 counterexample, run B: the state holding the enriched trade. -/
def c2bState1 : PortfolioInner :=
  { c2bState with open_trades := [c2bTrade1] }

/-- C2 counterexample, run B: the trade closed by the stop-loss at price 0. -/
def c2bCt : Trade :=
  { c2bTrade1 with
    raw_exit_price := some 0
    exit_price := some 0
    pnl := -(5049/1000000)
    exit_reason := some ExitReason.StopLoss
    hold_duration_hours := some 0
    status := TradeStatus.Lost
    balance_after := 1999/200 }

/-- C2 counterexample, run B: the state after the close (the negative return
amount is floored, so the balance does not move). -/
def c2bSt2 : PortfolioInner :=
  { c2bState1 with
    balance := 1999/200
    trades := [c2bCt]
    open_trades := []
    loss_count := 1
    consecutive_losses := 1
    max_drawdown := 1/2000 }

/-- Claim C2 counterexample: two concrete round trips under
`SimConfig::disabled()` where the recorded pnl does equal
`(exit − entry) × shares` but the claimed balance equation
`balance_after_close = balance_before_open − requested + bet_size + pnl`
fails.  Run A: requested size 20 against balance 10 is clamped to 10, so the
claimed equation (which subtracts the requested 20) gives 0 while the actual
balance is 10.  Run B: a $0.005 bet at entry 0.99 gets 0.0051 shares (rounded
up), a stop-loss exit at price 0 makes `bet_size + pnl = −0.000049 < 0`, the
credit is floored at 0, and the actual balance 9.995 differs from the claimed
9.994951. -/
theorem claim_C2_counterexample :
    (execute_trade (Portfolio.new 10 0) "a" 0 "m1" "q" Direction.Yes (2/5) (1/2) 0 20
      SimConfig.disabled 0 ⟨1, 1, 7/10, 0⟩ = some (c2aTrade, c2aState)) ∧
    (resolve_with_prices c2aState [] 0 0 SimConfig.disabled 0 (fun _ => 0)
      = (c2aSt2, [c2aCt])) ∧
    c2aCt.pnl = (c2aCt.exit_price.getD 0 - c2aTrade.entry_price) * c2aTrade.shares ∧
    ¬ c2aSt2.balance
        = (Portfolio.new 10 0).balance - 20 + c2aTrade.bet_size + c2aCt.pnl ∧
    (execute_trade (Portfolio.new 10 0) "b" 0 "m1" "q" Direction.Yes (99/100) (1/2) 0 (1/200)
      SimConfig.disabled 0 ⟨1, 1, 7/10, 0⟩ = some (c2bTrade, c2bState)) ∧
    (resolve_with_prices c2bState1 [{ id := "m1", yes_price := 0 }] 0 0
      SimConfig.disabled 0 (fun _ => 0) = (c2bSt2, [c2bCt])) ∧
    ((1:ℚ)/200 ≤ (Portfolio.new 10 0).balance) ∧
    c2bTrade1.bet_size + c2bCt.pnl < 0 ∧
    ¬ c2bSt2.balance
        = (Portfolio.new 10 0).balance - 1/200 + c2bTrade.bet_size + c2bCt.pnl := by
  have hys : (Direction.Yes = Direction.Skip) = False := by simp
  refine ⟨?_, ?_, ?_, ?_, ?_, ?_, ?_, ?_, ?_⟩
  · norm_num [execute_trade, execute_trade_core, initialBet, fillStage, directionPrice,
      clampedBet, entryGasFee, entryMakerTaker, openedTrade, openedState,
      adjustedEntryPrice, entryAdjustment, Portfolio.new, SimConfig.disabled,
      roundDp, roundHalfEven, min_def, hys, c2aTrade, c2aState,
      Trade.mk.injEq, PortfolioInner.mk.injEq, Prod.mk.injEq]
  · norm_num [resolve_with_prices, resolveStep, initAcc, tradeDecision, findMarket,
      closeTrade, grossPnl, actualExitPrice, exitSlippagePct, exitGasFeeOf,
      exitMakerTaker, platformFeeOf, returnAmount, updateFirstById,
      SimConfig.disabled, hys, c2aTrade, c2aState, c2aCt, c2aSt2,
      Trade.mk.injEq, PortfolioInner.mk.injEq, Prod.mk.injEq]
  · norm_num [c2aCt, c2aTrade]
  · norm_num [c2aSt2, c2aTrade, c2aCt, Portfolio.new]
  · norm_num [execute_trade, execute_trade_core, initialBet, fillStage, directionPrice,
      clampedBet, entryGasFee, entryMakerTaker, openedTrade, openedState,
      adjustedEntryPrice, entryAdjustment, Portfolio.new, SimConfig.disabled,
      roundDp, roundHalfEven, min_def, hys, c2bTrade, c2bState, c2aTrade, c2aState,
      Trade.mk.injEq, PortfolioInner.mk.injEq, Prod.mk.injEq]
  · norm_num [resolve_with_prices, resolveStep, initAcc, tradeDecision, findMarket,
      modeExit, scalpExit, tpTrigger, slTrigger, timeTrigger, firstSome,
      closeTrade, grossPnl, actualExitPrice, exitSlippagePct, exitGasFeeOf,
      exitMakerTaker, platformFeeOf, returnAmount, updateFirstById, directionPrice,
      SimConfig.disabled, hys, calculate_slippage_pct, spreadFactor,
      c2bTrade, c2bState, c2bTrade1, c2bState1, c2bCt, c2bSt2, c2aTrade, c2aState,
      Trade.mk.injEq, PortfolioInner.mk.injEq, Prod.mk.injEq]
  · norm_num [Portfolio.new]
  · norm_num [c2bTrade1, c2bTrade, c2bCt, c2aTrade]
  · norm_num [c2bSt2, c2bState1, c2bState, c2bTrade, c2bCt, c2bTrade1, c2aTrade,
      c2aState, Portfolio.new]

/-- C2 witness run: the trade opened with requested size 20 against balance
100 at price 0.40 (50 shares, no clamp). -/
def c2wTrade : Trade :=
  { c2aTrade with
    id := "w"
    bet_size := 20
    shares := 50
    balance_after := 80 }

/-- C2 witness run: the state after the open. -/
def c2wState : PortfolioInner :=
  { balance := 80
    initial_balance := 100
    trades := [c2wTrade]
    open_trades := [c2wTrade]
    win_count := 0
    loss_count := 0
    total_api_cost := 0
    peak_balance := 100
    max_drawdown := 0
    start_time := 0
    consecutive_losses := 0 }

/-- C2 witness run: the trade closed by `MarketResolved` at the entry price. -/
def c2wCt : Trade :=
  { c2wTrade with
    raw_exit_price := some (2/5)
    exit_price := some (2/5)
    pnl := 0
    exit_reason := some ExitReason.MarketResolved
    hold_duration_hours := some 0
    status := TradeStatus.Lost
    balance_after := 100 }

/-- C2 witness run: the state after the close. -/
def c2wSt2 : PortfolioInner :=
  { c2wState with
    balance := 100
    trades := [c2wCt]
    open_trades := []
    loss_count := 1
    consecutive_losses := 1 }

/-- Witness for the amended claim C2 at a concrete round trip: open 20 at
price 0.40 from balance 100, resolve with the market absent, pnl 0 and the
balance returns to 100. -/
theorem claim_C2_witness :
    c2wCt.pnl = (c2wCt.exit_price.getD 0 - c2wTrade.entry_price) * c2wTrade.shares ∧
    c2wSt2.balance = (Portfolio.new 100 0).balance - 20 + c2wTrade.bet_size + c2wCt.pnl := by
  have hys : (Direction.Yes = Direction.Skip) = False := by simp
  have hexec : execute_trade (Portfolio.new 100 0) "w" 0 "m1" "q" Direction.Yes (2/5) (1/2) 0 20
      SimConfig.disabled 0 ⟨1, 1, 7/10, 0⟩ = some (c2wTrade, c2wState) := by
    norm_num [execute_trade, execute_trade_core, initialBet, fillStage, directionPrice,
      clampedBet, entryGasFee, entryMakerTaker, openedTrade, openedState,
      adjustedEntryPrice, entryAdjustment, Portfolio.new, SimConfig.disabled,
      roundDp, roundHalfEven, min_def, hys, c2wTrade, c2wState, c2aTrade,
      Trade.mk.injEq, PortfolioInner.mk.injEq, Prod.mk.injEq]
  have hres : resolve_with_prices c2wState [] 0 0 SimConfig.disabled 0 (fun _ => 0)
      = (c2wSt2, [c2wCt]) := by
    norm_num [resolve_with_prices, resolveStep, initAcc, tradeDecision, findMarket,
      closeTrade, grossPnl, actualExitPrice, exitSlippagePct, exitGasFeeOf,
      exitMakerTaker, platformFeeOf, returnAmount, updateFirstById,
      SimConfig.disabled, hys, c2wTrade, c2wState, c2wCt, c2wSt2, c2aTrade,
      Trade.mk.injEq, PortfolioInner.mk.injEq, Prod.mk.injEq]
  exact claim_C2_round_trip_amended (by norm_num [Portfolio.new]) hexec rfl rfl rfl rfl rfl
    hres (by norm_num [c2wTrade, c2wCt, c2aTrade])

theorem spreadFactor_nonneg (s : ℚ) : 0 ≤ spreadFactor s := by
  unfold spreadFactor
  split_ifs with h
  · exact le_min (by positivity) (by norm_num)
  · norm_num

theorem calculate_slippage_pct_nonneg {sim : SimConfig} {bet spread : ℚ}
    (hbase : 0 ≤ sim.base_slippage_pct) (hpen : 0 ≤ sim.size_penalty_pct) :
    0 ≤ calculate_slippage_pct sim bet spread := by
  unfold calculate_slippage_pct
  split_ifs with h
  · have h1 : 0 ≤ sim.base_slippage_pct * spreadFactor spread :=
      mul_nonneg hbase (spreadFactor_nonneg spread)
    have h2 : 0 ≤ sim.size_penalty_pct * (bet - sim.size_penalty_threshold) :=
      mul_nonneg hpen (by linarith)
    linarith
  · exact mul_nonneg hbase (spreadFactor_nonneg spread)

theorem calculate_impact_pct_nonneg {sim : SimConfig} {bet : ℚ}
    (himp : 0 ≤ sim.impact_per_dollar_pct) :
    0 ≤ calculate_impact_pct sim bet := by
  unfold calculate_impact_pct
  split_ifs with h
  · exact le_refl 0
  · exact mul_nonneg himp (by linarith [not_le.mp h])

theorem entryAdjustment_nonneg {sim : SimConfig} {bet myp : ℚ}
    (hbase : 0 ≤ sim.base_slippage_pct) (hpen : 0 ≤ sim.size_penalty_pct)
    (himp : 0 ≤ sim.impact_per_dollar_pct) :
    0 ≤ entryAdjustment sim bet myp := by
  unfold entryAdjustment
  have h1 : 0 ≤ (if sim.slippage_enabled then
      calculate_slippage_pct sim bet |myp - (1 - myp)| else 0) := by
    split_ifs
    · exact calculate_slippage_pct_nonneg hbase hpen
    · exact le_refl 0
  have h2 : 0 ≤ (if sim.impact_enabled then calculate_impact_pct sim bet else 0) := by
    split_ifs
    · exact calculate_impact_pct_nonneg himp
    · exact le_refl 0
  linarith

theorem exitSlippagePct_nonneg {sim : SimConfig} {bet : ℚ}
    (hbase : 0 ≤ sim.base_slippage_pct) (hpen : 0 ≤ sim.size_penalty_pct) :
    0 ≤ exitSlippagePct sim bet := by
  unfold exitSlippagePct
  split_ifs
  · exact calculate_slippage_pct_nonneg hbase hpen
  · exact le_refl 0

/-- Claim C8 (amended): with all configured rates non-negative (gas-fee lower
bound, taker and platform fee rates, base and size-penalty slippage rates,
impact rate) and non-negative random draws, every itemized cost — entry gas,
entry maker/taker, entry slippage cost, exit gas, exit maker/taker, platform
fee, exit slippage cost — is non-negative, and the adjusted entry price lies
in (0, 0.99] ⊆ [0, 1] whenever the raw direction price is positive (as the
source guards).  The slippage-adjusted exit price, however, is only within
[0, 1] under the extra hypothesis `exitSlippagePct sim t.bet_size ≤ 1`: the
exit slippage percentage is uncapped, so without that bound the exit fill
price can leave [0, 1] (see the counterexample). -/
theorem claim_C8_costs_amended
    (sim : SimConfig) (o : ExecOracle) (gasDraw myp raw cp bet2 : ℚ) (t : Trade)
    (hgmin : 0 ≤ sim.gas_fee_min) (hodraw : 0 ≤ o.gasDraw)
    (htaker : 0 ≤ sim.taker_fee_pct) (hplat : 0 ≤ sim.platform_fee_pct)
    (hbase : 0 ≤ sim.base_slippage_pct) (hpen : 0 ≤ sim.size_penalty_pct)
    (himp : 0 ≤ sim.impact_per_dollar_pct)
    (hbet2 : 0 ≤ bet2) (hraw : 0 < raw)
    (hgdraw : 0 ≤ gasDraw) (hshares : 0 ≤ t.shares)
    (hcp0 : 0 ≤ cp) (hcp1 : cp ≤ 1)
    (hslip1 : exitSlippagePct sim t.bet_size ≤ 1) :
    0 ≤ entryGasFee sim o ∧
    0 ≤ entryMakerTaker sim bet2 ∧
    0 ≤ |adjustedEntryPrice sim bet2 myp raw - raw| * bet2
        / adjustedEntryPrice sim bet2 myp raw ∧
    0 < adjustedEntryPrice sim bet2 myp raw ∧
    adjustedEntryPrice sim bet2 myp raw ≤ 99/100 ∧
    0 ≤ exitGasFeeOf sim gasDraw ∧
    0 ≤ exitMakerTaker sim cp t ∧
    0 ≤ platformFeeOf sim cp t ∧
    0 ≤ |cp - actualExitPrice sim t.bet_size cp| * t.shares ∧
    0 ≤ actualExitPrice sim t.bet_size cp ∧
    actualExitPrice sim t.bet_size cp ≤ 1 := by
  have hadj : 0 ≤ entryAdjustment sim bet2 myp :=
    entryAdjustment_nonneg hbase hpen himp
  have hpos : 0 < adjustedEntryPrice sim bet2 myp raw := by
    unfold adjustedEntryPrice
    exact lt_min (by nlinarith) (by norm_num)
  have hpct0 : 0 ≤ exitSlippagePct sim t.bet_size :=
    exitSlippagePct_nonneg hbase hpen
  have hexit0 : 0 ≤ actualExitPrice sim t.bet_size cp := by
    unfold actualExitPrice
    exact mul_nonneg hcp0 (by linarith)
  have hexit1 : actualExitPrice sim t.bet_size cp ≤ 1 := by
    unfold actualExitPrice
    nlinarith
  refine ⟨entryGasFee_nonneg hgmin hodraw, entryMakerTaker_nonneg hbet2 htaker,
    div_nonneg (mul_nonneg (abs_nonneg _) hbet2) (le_of_lt hpos),
    hpos, ?_, ?_, ?_, ?_, mul_nonneg (abs_nonneg _) hshares, hexit0, hexit1⟩
  · unfold adjustedEntryPrice
    exact min_le_right _ _
  · unfold exitGasFeeOf
    split_ifs
    · exact random_gas_fee_nonneg hgmin hgdraw
    · exact le_refl 0
  · unfold exitMakerTaker
    split_ifs
    · exact mul_nonneg (abs_nonneg _) htaker
    · exact le_refl 0
  · unfold platformFeeOf
    split_ifs with h
    · exact mul_nonneg (le_of_lt h.2) hplat
    · exact le_refl 0

/-- C8 counterexample configuration: slippage on with a 1% base rate and a 1%
per-dollar size penalty above a $100 threshold — every rate non-negative. -/
def c8sim : SimConfig :=
  { SimConfig.disabled with
    slippage_enabled := true
    base_slippage_pct := 1/100
    size_penalty_pct := 1/100
    size_penalty_threshold := 100 }

/-- C8 counterexample trade: a $300 position of 100 shares entered at 0.50. -/
def c8trade : Trade :=
  { c2aTrade with
    id := "c8"
    bet_size := 300
    shares := 100
    entry_price := 1/2 }

/-- Claim C8 counterexample: with all configured rates non-negative (1% base
slippage, 1% per-dollar size penalty above $100), a $300 position closed at
market price 0.50 gets an exit slippage percentage of 200.6%, so the recorded
effective exit fill price is −0.503 ∉ [0, 1]. -/
theorem claim_C8_counterexample :
    (0 ≤ c8sim.gas_fee_min ∧ 0 ≤ c8sim.taker_fee_pct ∧ 0 ≤ c8sim.platform_fee_pct ∧
      0 ≤ c8sim.base_slippage_pct ∧ 0 ≤ c8sim.size_penalty_pct ∧
      0 ≤ c8sim.impact_per_dollar_pct) ∧
    ((0:ℚ) ≤ 1/2 ∧ (1/2:ℚ) ≤ 1) ∧
    exitSlippagePct c8sim c8trade.bet_size = 1003/500 ∧
    (closeTrade c8sim 0 0 ExitReason.TimeExpiry (1/2) 1000 c8trade).1.exit_price
      = some (-(503/1000)) ∧
    ¬ (0:ℚ) ≤ -(503/1000) := by
  norm_num [c8sim, SimConfig.disabled, c8trade, c2aTrade, exitSlippagePct,
    calculate_slippage_pct, spreadFactor, closeTrade, actualExitPrice, grossPnl,
    exitGasFeeOf, exitMakerTaker, platformFeeOf, returnAmount, min_def]

/-- Witness for the amended claim C8 at concrete inputs: the counterexample
configuration with a small ($10) position, raw price 0.40 and exit market
price 0.50, where the exit slippage bound holds. -/
theorem claim_C8_witness :
    0 ≤ entryGasFee c8sim ⟨1, 1, 7/10, 0⟩ ∧
    0 ≤ entryMakerTaker c8sim 10 ∧
    0 ≤ |adjustedEntryPrice c8sim 10 (2/5) (2/5) - 2/5| * 10
        / adjustedEntryPrice c8sim 10 (2/5) (2/5) ∧
    0 < adjustedEntryPrice c8sim 10 (2/5) (2/5) ∧
    adjustedEntryPrice c8sim 10 (2/5) (2/5) ≤ 99/100 ∧
    0 ≤ exitGasFeeOf c8sim 0 ∧
    0 ≤ exitMakerTaker c8sim (1/2) c2aTrade ∧
    0 ≤ platformFeeOf c8sim (1/2) c2aTrade ∧
    0 ≤ |1/2 - actualExitPrice c8sim c2aTrade.bet_size (1/2)| * c2aTrade.shares ∧
    0 ≤ actualExitPrice c8sim c2aTrade.bet_size (1/2) ∧
    actualExitPrice c8sim c2aTrade.bet_size (1/2) ≤ 1 := by
  exact claim_C8_costs_amended c8sim ⟨1, 1, 7/10, 0⟩ 0 (2/5) (2/5) (1/2) 10 c2aTrade
    (by norm_num [c8sim, SimConfig.disabled])
    (by norm_num)
    (by norm_num [c8sim, SimConfig.disabled])
    (by norm_num [c8sim, SimConfig.disabled])
    (by norm_num [c8sim, SimConfig.disabled])
    (by norm_num [c8sim, SimConfig.disabled])
    (by norm_num [c8sim, SimConfig.disabled])
    (by norm_num)
    (by norm_num)
    (by norm_num)
    (by norm_num [c2aTrade])
    (by norm_num)
    (by norm_num)
    (by norm_num [exitSlippagePct, c8sim, SimConfig.disabled, calculate_slippage_pct,
      spreadFactor, c2aTrade, min_def])
